import Mathlib

/-!
Verification of the reactive dependency-tracking engine in
src/signal/alien-signals/system.ts.

The engine is shallowly embedded: nodes and links live in index-addressed
arenas (`List Node`, `List Link`), mirroring the intrusive doubly/singly
linked lists of the source.  All iterative algorithms (`propagate`,
`checkDirty`, `clearTracking`, the effect queue drain) are fuel-indexed;
`none` means the fuel ran out, never a result of the program itself.
User-supplied code (computed getters, effect bodies) is deep-embedded as a
tiny expression/action language, and every policy-callback invocation and
every completed effect run is recorded in an event log so that temporal
claims ("no user code runs during propagation", "the body runs exactly
once") become statements about the log.
-/

set_option maxHeartbeats 2000000
set_option maxRecDepth 4000
set_option synthInstance.maxSize 4096
set_option linter.unreachableTactic false
set_option linter.unusedTactic false
set_option linter.unusedVariables false

namespace AlienSignals

abbrev NodeId := Nat
abbrev LinkId := Nat

/-- Subscriber flag bits, matching `SubscriberFlags` in system.ts. -/
def fComputed : Nat := 1
def fEffect : Nat := 2
def fTracking : Nat := 4
def fNotified : Nat := 8
def fRecursed : Nat := 16
def fDirty : Nat := 32
def fPendingComputed : Nat := 64
def fPendingEffect : Nat := 128
def fPropagated : Nat := fDirty ||| fPendingComputed ||| fPendingEffect

/-- Bit test: `(flags & mask) != 0` of the source. -/
def hasF (f m : Nat) : Bool := f &&& m != 0

/-- Bit clear: `flags & ~mask` of the source.  Flag words are 8-bit. -/
def clrF (f m : Nat) : Nat := f &&& (255 ^^^ m)

/-- Getter expressions: the deep embedding of computed derivation
functions.  `throwE` models a derivation that throws. -/
inductive GExp where
  | lit : Nat → GExp
  | readSig : NodeId → GExp
  | readComp : NodeId → GExp
  | add : GExp → GExp → GExp
  | div2 : GExp → GExp
  | throwE : GExp
deriving DecidableEq, Repr

/-- Actions: the deep embedding of effect (and scope) bodies. -/
inductive Act where
  | readSig : NodeId → Act
  | readComp : NodeId → Act
  | writeSig : NodeId → Nat → Act
  | pause : Act
  | resume : Act
  | sbatch : Act
  | ebatch : Act
  | throwE : Act
deriving DecidableEq, Repr

/-- Log events marking every invocation of user-facing callbacks:
`updC c` = the `updateComputed` policy ran `c`'s derivation;
`notify e` = the `notifyEffect` policy was invoked on `e`;
`run e obs` = effect `e`'s body ran to completion observing `obs`. -/
inductive Ev where
  | updC : NodeId → Ev
  | notify : NodeId → Ev
  | run : NodeId → List Nat → Ev
deriving DecidableEq, Repr

/-- A node: plays the `Dependency` role (`subs`/`subsTail`) and/or the
`Subscriber` role (`flags`, `deps`, `depsTail`).  `isSub` models the
source's `'flags' in dep` / `'deps' in dep` membership tests; `isScope`
models `'isScope' in e`.  `value` is `currentValue`; `getter`/`body` are
the deep-embedded user functions. -/
structure Node where
  subs : Option LinkId
  subsTail : Option LinkId
  deps : Option LinkId
  depsTail : Option LinkId
  flags : Nat
  isSub : Bool
  isScope : Bool
  value : Nat
  getter : GExp
  body : List Act
deriving DecidableEq, Repr

/-- A link (edge): `sub` depends on `dep`, with the sibling pointers of the
two intrusive lists. -/
structure Link where
  dep : NodeId
  sub : NodeId
  prevSub : Option LinkId
  nextSub : Option LinkId
  nextDep : Option LinkId
deriving DecidableEq, Repr

def nodeDefault : Node :=
  { subs := none, subsTail := none, deps := none, depsTail := none,
    flags := 0, isSub := false, isScope := false, value := 0,
    getter := .lit 0, body := [] }

def linkDefault : Link :=
  { dep := 0, sub := 0, prevSub := none, nextSub := none, nextDep := none }

/-- The whole process state: node arena, link arena, the queued-effects
list, and the module-level mutable variables of the primitives layer
(`batchDepth` is an `Int` because the source lets it underflow). -/
structure State where
  nodes : List Node
  links : List Link
  nextLinkId : Nat
  queuedEffects : Option NodeId
  queuedEffectsTail : Option NodeId
  batchDepth : Int
  activeSub : Option NodeId
  activeScope : Option NodeId
  pauseStack : List (Option NodeId)
  log : List Ev
deriving DecidableEq, Repr

def getNode (st : State) (i : NodeId) : Node := st.nodes.getD i nodeDefault
def getLink (st : State) (i : LinkId) : Link := st.links.getD i linkDefault

def updNode (st : State) (i : NodeId) (f : Node → Node) : State :=
  { st with nodes := st.nodes.set i (f (getNode st i)) }

def updLink (st : State) (i : LinkId) (f : Link → Link) : State :=
  { st with links := st.links.set i (f (getLink st i)) }

/-- Transcribes `linkNewDep(dep, sub, nextDep, depsTail)`: allocate a fresh
link and append it to the subscriber's dependency list and the
dependency's subscriber list. -/
def linkNewDep (st : State) (dep sub : NodeId)
    (nextDep : Option LinkId) (depsTail : Option LinkId) : State × LinkId :=
  let id := st.nextLinkId
  let newLink : Link :=
    { dep := dep, sub := sub, nextDep := nextDep, prevSub := none, nextSub := none }
  let st := { st with links := st.links ++ [newLink], nextLinkId := id + 1 }
  let st :=
    match depsTail with
    | none => updNode st sub (fun n => { n with deps := some id })
    | some t => updLink st t (fun l => { l with nextDep := some id })
  let st :=
    match (getNode st dep).subs with
    | none => updNode st dep (fun n => { n with subs := some id })
    | some _ =>
        match (getNode st dep).subsTail with
        | some oldTail =>
            let st := updLink st id (fun l => { l with prevSub := some oldTail })
            updLink st oldTail (fun l => { l with nextSub := some id })
        | none => st
  let st := updNode st sub (fun n => { n with depsTail := some id })
  (updNode st dep (fun n => { n with subsTail := some id }), id)

/-- Transcribes `isValidLink`: walk `sub.deps .. sub.depsTail` looking for
`checkLink`.  Fuel-indexed; `none` = out of fuel. -/
def ivlGo : Nat → State → LinkId → LinkId → Option LinkId → Option Bool
  | _, _, _, _, none => some false
  | 0, _, _, _, some _ => none
  | fuel + 1, st, checkLink, depsTail, some l =>
    if l = checkLink then some true
    else if l = depsTail then some false
    else ivlGo fuel st checkLink depsTail ((getLink st l).nextDep)

def isValidLink (fuel : Nat) (st : State) (checkLink : LinkId) (sub : NodeId) :
    Option Bool :=
  match (getNode st sub).depsTail with
  | none => some false
  | some depsTail => ivlGo fuel st checkLink depsTail ((getNode st sub).deps)

/-- Transcribes `link(dep, sub)`.  Returns the (possibly updated) state and
`some id` exactly when a new link was allocated (the source returns the
new `Link` object, `undefined` otherwise). -/
def linkF (fuel : Nat) (st : State) (dep sub : NodeId) :
    Option (State × Option LinkId) :=
  let currentDep := (getNode st sub).depsTail
  let hit1 : Bool :=
    match currentDep with
    | some cd => (getLink st cd).dep == dep
    | none => false
  if hit1 then some (st, none)
  else
    let nextDep :=
      match currentDep with
      | some cd => (getLink st cd).nextDep
      | none => (getNode st sub).deps
    let hit2 : Bool :=
      match nextDep with
      | some nd => (getLink st nd).dep == dep
      | none => false
    if hit2 then
      some (updNode st sub (fun n => { n with depsTail := nextDep }), none)
    else
      match (getNode st dep).subsTail with
      | some depLastSub =>
          if (getLink st depLastSub).sub = sub then
            match isValidLink fuel st depLastSub sub with
            | none => none
            | some true => some (st, none)
            | some false =>
                let p := linkNewDep st dep sub nextDep currentDep
                some (p.1, some p.2)
          else
            let p := linkNewDep st dep sub nextDep currentDep
            some (p.1, some p.2)
      | none =>
          let p := linkNewDep st dep sub nextDep currentDep
          some (p.1, some p.2)

/-- Transcribes `startTracking(sub)`: reset the cursor and clear
`Notified`/`Recursed`/`Propagated` while setting `Tracking`. -/
def startTracking (st : State) (sub : NodeId) : State :=
  updNode st sub fun n =>
    { n with depsTail := none,
             flags := clrF n.flags (fNotified ||| fRecursed ||| fPropagated) ||| fTracking }

/-- Transcribes `clearTracking(link)`: unlink a chain of dependency links
from both lists; a dependency losing its last subscriber is marked `Dirty`
and its own dependencies are detached recursively (by splicing them into
the walk). -/
def clearTracking : Nat → State → LinkId → Option State
  | 0, _, _ => none
  | fuel + 1, st, link =>
    let l := getLink st link
    let dep := l.dep
    let nextDep := l.nextDep
    let nextSub := l.nextSub
    let prevSub := l.prevSub
    let st :=
      match nextSub with
      | some ns => updLink st ns (fun x => { x with prevSub := prevSub })
      | none => updNode st dep (fun n => { n with subsTail := prevSub })
    let st :=
      match prevSub with
      | some ps => updLink st ps (fun x => { x with nextSub := nextSub })
      | none => updNode st dep (fun n => { n with subs := nextSub })
    if (getNode st dep).subs.isNone && (getNode st dep).isSub then
      let st :=
        if hasF (getNode st dep).flags fDirty then st
        else updNode st dep (fun n => { n with flags := n.flags ||| fDirty })
      match (getNode st dep).deps with
      | some depDeps =>
          let st :=
            match (getNode st dep).depsTail with
            | some dt => updLink st dt (fun x => { x with nextDep := nextDep })
            | none => st
          let st := updNode st dep (fun n => { n with deps := none, depsTail := none })
          clearTracking fuel st depDeps
      | none =>
          match nextDep with
          | some nd => clearTracking fuel st nd
          | none => some st
    else
      match nextDep with
      | some nd => clearTracking fuel st nd
      | none => some st

/-- Transcribes `endTracking(sub)`: prune every link beyond the cursor,
then clear the `Tracking` flag. -/
def endTracking (fuel : Nat) (st : State) (sub : NodeId) : Option State :=
  let fin : State → Option State := fun st =>
    some (updNode st sub (fun n => { n with flags := clrF n.flags fTracking }))
  match (getNode st sub).depsTail with
  | some depsTail =>
      match (getLink st depsTail).nextDep with
      | some nextDep =>
          match clearTracking fuel st nextDep with
          | none => none
          | some st => fin (updLink st depsTail (fun l => { l with nextDep := none }))
      | none => fin st
  | none =>
      match (getNode st sub).deps with
      | some d =>
          match clearTracking fuel st d with
          | none => none
          | some st => fin (updNode st sub (fun n => { n with deps := none }))
      | none => fin st

/-- Appends an effect to the process-wide queued-effects list, threading
the queue through the previous tail's `depsTail.nextDep` as the source
does. -/
def enqueueEffect (st : State) (sub : NodeId) : State :=
  match st.queuedEffectsTail with
  | some t =>
      let st :=
        match (getNode st t).depsTail with
        | some dt => updLink st dt (fun l => { l with nextDep := (getNode st sub).deps })
        | none => st
      { st with queuedEffectsTail := some sub }
  | none => { st with queuedEffects := some sub, queuedEffectsTail := some sub }

/-- Transcribes `shallowPropagate(link)`: promote `PendingComputed` (and
not already `Dirty`) subscribers to `Dirty`, enqueueing effects. -/
def shallowPropagate : Nat → State → LinkId → Option State
  | 0, _, _ => none
  | fuel + 1, st, link =>
    let sub := (getLink st link).sub
    let subFlags := (getNode st sub).flags
    let st :=
      if subFlags &&& (fPendingComputed ||| fDirty) = fPendingComputed then
        let st := updNode st sub
          (fun n => { n with flags := subFlags ||| fDirty ||| fNotified })
        if subFlags &&& (fEffect ||| fNotified) = fEffect then enqueueEffect st sub
        else st
      else st
    match (getLink st link).nextSub with
    | some l => shallowPropagate fuel st l
    | none => some st

mutual

/-- Transcribes the `top:` loop of `propagate`: process `link`, whose
subscriber is inspected against the three marking branches; `subs` is the
sibling cursor, `stack` the manual recursion depth. -/
def propTop : Nat → State → LinkId → LinkId → Nat → Nat → Option State
  | 0, _, _, _, _, _ => none
  | fuel + 1, st, link, subs, targetFlag, stack =>
    let sub := (getLink st link).sub
    let subFlags := (getNode st sub).flags
    if !hasF subFlags (fTracking ||| fRecursed ||| fPropagated) then
      propDescend fuel
        (updNode st sub (fun n => { n with flags := subFlags ||| targetFlag ||| fNotified }))
        subs targetFlag stack sub subFlags
    else if hasF subFlags fRecursed && !hasF subFlags fTracking then
      propDescend fuel
        (updNode st sub
          (fun n => { n with flags := clrF subFlags fRecursed ||| targetFlag ||| fNotified }))
        subs targetFlag stack sub subFlags
    else if !hasF subFlags fPropagated then
      match isValidLink fuel st link sub with
      | none => none
      | some true =>
          let st := updNode st sub
            (fun n => { n with flags := subFlags ||| fRecursed ||| targetFlag ||| fNotified })
          if (getNode st sub).subs.isSome then
            propDescend fuel st subs targetFlag stack sub subFlags
          else
            propElse fuel st link subs targetFlag stack sub subFlags
      | some false => propElse fuel st link subs targetFlag stack sub subFlags
    else propElse fuel st link subs targetFlag stack sub subFlags
  termination_by structural fuel _ _ _ _ _ => fuel

/-- The body run when the marking condition held: descend into the
subscriber's own subscribers, or enqueue it if it is a terminal effect. -/
def propDescend : Nat → State → LinkId → Nat → Nat → NodeId → Nat → Option State
  | 0, _, _, _, _, _, _ => none
  | fuel + 1, st, subs, targetFlag, stack, sub, subFlags =>
    match (getNode st sub).subs with
    | some subSubs =>
        if (getLink st subSubs).nextSub.isSome then
          propTop fuel (updLink st subSubs (fun l => { l with prevSub := some subs }))
            subSubs subSubs fPendingComputed (stack + 1)
        else
          propTop fuel st subSubs subs
            (if hasF subFlags fEffect then fPendingEffect else fPendingComputed) stack
    | none =>
        let st := if hasF subFlags fEffect then enqueueEffect st sub else st
        propAdvance fuel st subs targetFlag stack
  termination_by structural fuel _ _ _ _ _ _ => fuel

/-- The two `else if` re-marking branches of `propagate`, then the sibling
advance. -/
def propElse : Nat → State → LinkId → LinkId → Nat → Nat → NodeId → Nat → Option State
  | 0, _, _, _, _, _, _, _ => none
  | fuel + 1, st, link, subs, targetFlag, stack, sub, subFlags =>
    if !hasF subFlags (fTracking ||| targetFlag) then
      let st := updNode st sub
        (fun n => { n with flags := subFlags ||| targetFlag ||| fNotified })
      let st :=
        if subFlags &&& (fEffect ||| fNotified) = fEffect then enqueueEffect st sub
        else st
      propAdvance fuel st subs targetFlag stack
    else if !hasF subFlags targetFlag && hasF subFlags fPropagated then
      match isValidLink fuel st link sub with
      | none => none
      | some true =>
          propAdvance fuel
            (updNode st sub (fun n => { n with flags := subFlags ||| targetFlag }))
            subs targetFlag stack
      | some false => propAdvance fuel st subs targetFlag stack
    else propAdvance fuel st subs targetFlag stack
  termination_by structural fuel _ _ _ _ _ _ _ => fuel

/-- Advance to the next sibling subscriber, or unwind the manual stack. -/
def propAdvance : Nat → State → LinkId → Nat → Nat → Option State
  | 0, _, _, _, _ => none
  | fuel + 1, st, subs, _targetFlag, stack =>
    match (getLink st subs).nextSub with
    | some l =>
        propTop fuel st l l (if stack ≠ 0 then fPendingComputed else fDirty) stack
    | none => propUnwind fuel st subs stack
  termination_by structural fuel _ _ _ _ => fuel

/-- The `while (stack)` unwind of `propagate`, using the `prevSub` pointer
stored at descent time as the return path. -/
def propUnwind : Nat → State → LinkId → Nat → Option State
  | 0, _, _, _ => none
  | fuel + 1, st, subs, stack =>
    match stack with
    | 0 => some st
    | stack1 + 1 =>
        let dep := (getLink st subs).dep
        match (getNode st dep).subs with
        | none => some st
        | some depSubs =>
            match (getLink st depSubs).prevSub with
            | none => some st
            | some prev =>
                let st := updLink st depSubs (fun l => { l with prevSub := none })
                match (getLink st prev).nextSub with
                | some l =>
                    propTop fuel st l l
                      (if stack1 ≠ 0 then fPendingComputed else fDirty) stack1
                | none => propUnwind fuel st prev stack1
  termination_by structural fuel _ _ _ => fuel

end

/-- Transcribes `propagate(link)`. -/
def propagate (fuel : Nat) (st : State) (link : LinkId) : Option State :=
  propTop fuel st link link fDirty 0

/-- Transcribes `startBatch()`. -/
def startBatchF (st : State) : State := { st with batchDepth := st.batchDepth + 1 }

/-- Transcribes `pauseTracking()`: push the active subscriber and clear it. -/
def pauseTracking (st : State) : State :=
  { st with pauseStack := st.activeSub :: st.pauseStack, activeSub := none }

/-- Transcribes `resumeTracking()`: pop the pause stack (popping an empty
JS array yields `undefined`). -/
def resumeTracking (st : State) : State :=
  match st.pauseStack with
  | [] => { st with activeSub := none }
  | a :: rest => { st with activeSub := a, pauseStack := rest }

/-- Transcribes the read path of `signalGetterSetter`: link to the active
subscriber if any, then return the current value. -/
def sigRead (fuel : Nat) (st : State) (s : NodeId) : Option (State × Nat) :=
  match st.activeSub with
  | some a =>
      match linkF fuel st s a with
      | none => none
      | some (st, _) => some (st, (getNode st s).value)
  | none => some (st, (getNode st s).value)

mutual

/-- Transcribes the `top:` loop of `checkDirty(link)`.  The result pairs
the state with `some dirty` on normal return and `none` when a user
derivation threw (the source has no handler here, so the exception
escapes). -/
def cdTop : Nat → State → LinkId → Nat → Option (State × Option Bool)
  | 0, _, _, _ => none
  | fuel + 1, st, link, stack =>
    let dep := (getLink st link).dep
    if (getNode st dep).isSub then
      let depFlags := (getNode st dep).flags
      if depFlags &&& (fComputed ||| fDirty) = fComputed ||| fDirty then
        match updComputed fuel st dep with
        | none => none
        | some (st, none) => some (st, none)
        | some (st, some changed) =>
            if changed then
              match (getNode st dep).subs with
              | some subs =>
                  if (getLink st subs).nextSub.isSome then
                    match shallowPropagate fuel st subs with
                    | none => none
                    | some st => cdAfter fuel st link stack true
                  else cdAfter fuel st link stack true
              | none => cdAfter fuel st link stack true
            else cdAfter fuel st link stack false
      else if depFlags &&& (fComputed ||| fPendingComputed) = fComputed ||| fPendingComputed then
        match (getNode st dep).subs with
        | some depSubs =>
            let st :=
              if (getLink st depSubs).nextSub.isSome then
                updLink st depSubs (fun l => { l with prevSub := some link })
              else st
            match (getNode st dep).deps with
            | some dd => cdTop fuel st dd (stack + 1)
            | none => cdAfter fuel st link stack false
        | none => cdAfter fuel st link stack false
      else cdAfter fuel st link stack false
    else cdAfter fuel st link stack false
  termination_by structural fuel _ _ _ => fuel

/-- The code after the dependency dispatch in `checkDirty`: move to the
next dependency when still clean, otherwise unwind. -/
def cdAfter : Nat → State → LinkId → Nat → Bool → Option (State × Option Bool)
  | 0, _, _, _, _ => none
  | fuel + 1, st, link, stack, dirty =>
    match (getLink st link).nextDep with
    | some nd =>
        if dirty then
          if stack ≠ 0 then cdUnwind fuel st ((getLink st link).sub) stack dirty
          else some (st, some dirty)
        else cdTop fuel st nd stack
    | none =>
        if stack ≠ 0 then cdUnwind fuel st ((getLink st link).sub) stack dirty
        else some (st, some dirty)
  termination_by structural fuel _ _ _ _ => fuel

/-- One iteration of the inner `do ... while (stack)` unwind of
`checkDirty`: a dirty result forces the parent computed to recompute; a
clean one clears its `PendingComputed`. -/
def cdUnwind : Nat → State → NodeId → Nat → Bool → Option (State × Option Bool)
  | 0, _, _, _, _ => none
  | fuel + 1, st, sub, stack, dirty =>
    match stack with
    | 0 => some (st, some dirty)
    | stack1 + 1 =>
        match (getNode st sub).subs with
        | none => some (st, some dirty)
        | some subSubs =>
            if dirty then
              match updComputed fuel st sub with
              | none => none
              | some (st, none) => some (st, none)
              | some (st, some changed) =>
                  if changed then
                    match (getLink st subSubs).prevSub with
                    | some link =>
                        let st := updLink st subSubs (fun l => { l with prevSub := none })
                        match shallowPropagate fuel st subSubs with
                        | none => none
                        | some st => cdUnwind fuel st ((getLink st link).sub) stack1 true
                    | none => cdUnwind fuel st ((getLink st subSubs).sub) stack1 true
                  else cdCommon fuel st subSubs stack1
            else
              let st := updNode st sub
                (fun n => { n with flags := clrF n.flags fPendingComputed })
              cdCommon fuel st subSubs stack1
  termination_by structural fuel _ _ _ _ => fuel

/-- The shared tail of the `checkDirty` unwind iteration: follow the
stored `prevSub` return pointer (or the head link's `nextDep`) back to the
parent's remaining dependencies. -/
def cdCommon : Nat → State → LinkId → Nat → Option (State × Option Bool)
  | 0, _, _, _ => none
  | fuel + 1, st, subSubs, stack1 =>
    match (getLink st subSubs).prevSub with
    | some link =>
        let st := updLink st subSubs (fun l => { l with prevSub := none })
        match (getLink st link).nextDep with
        | some nd => cdTop fuel st nd stack1
        | none => cdUnwind fuel st ((getLink st link).sub) stack1 false
    | none =>
        match (getLink st subSubs).nextDep with
        | some nd => cdTop fuel st nd stack1
        | none => cdUnwind fuel st ((getLink st subSubs).sub) stack1 false
  termination_by structural fuel _ _ _ => fuel

/-- Transcribes the `updateComputed` policy of the primitives layer: swap
in the computed as active subscriber, run its getter in a tracking
session, store the value if it changed; the `finally` block restores the
active subscriber and ends tracking even when the getter throws
(`some (st, none)` = rethrow). -/
def updComputed : Nat → State → NodeId → Option (State × Option Bool)
  | 0, _, _ => none
  | fuel + 1, st, c =>
    let prevSub := st.activeSub
    let st := { st with activeSub := some c, log := st.log ++ [Ev.updC c] }
    let st := startTracking st c
    let oldValue := (getNode st c).value
    match evalG fuel st (getNode st c).getter with
    | none => none
    | some (st, none) =>
        let st := { st with activeSub := prevSub }
        match endTracking fuel st c with
        | none => none
        | some st => some (st, none)
    | some (st, some newValue) =>
        let changed : Bool := oldValue != newValue
        let st := if changed then updNode st c (fun n => { n with value := newValue }) else st
        let st := { st with activeSub := prevSub }
        match endTracking fuel st c with
        | none => none
        | some st => some (st, some changed)
  termination_by structural fuel _ _ => fuel

/-- Evaluates a deep-embedded getter expression. -/
def evalG : Nat → State → GExp → Option (State × Option Nat)
  | 0, _, _ => none
  | fuel + 1, st, g =>
    match g with
    | .lit n => some (st, some n)
    | .readSig s =>
        match sigRead fuel st s with
        | none => none
        | some (st, v) => some (st, some v)
    | .readComp c => computedGetter fuel st c
    | .add a b =>
        match evalG fuel st a with
        | none => none
        | some (st, none) => some (st, none)
        | some (st, some va) =>
            match evalG fuel st b with
            | none => none
            | some (st, none) => some (st, none)
            | some (st, some vb) => some (st, some (va + vb))
    | .div2 a =>
        match evalG fuel st a with
        | none => none
        | some (st, none) => some (st, none)
        | some (st, some va) => some (st, some (va / 2))
    | .throwE => some (st, none)
  termination_by structural fuel _ _ => fuel

/-- Transcribes `computedGetter`: update if `Dirty`/`PendingComputed`,
then link to the active subscriber or, failing that, the active scope,
and return the cached value.  `some (st, none)` = the derivation threw. -/
def computedGetter : Nat → State → NodeId → Option (State × Option Nat)
  | 0, _, _ => none
  | fuel + 1, st, c =>
    let flags := (getNode st c).flags
    let fin : State → Option (State × Option Nat) := fun st =>
      match st.activeSub with
      | some a =>
          match linkF fuel st c a with
          | none => none
          | some (st, _) => some (st, some ((getNode st c).value))
      | none =>
          match st.activeScope with
          | some sc =>
              match linkF fuel st c sc with
              | none => none
              | some (st, _) => some (st, some ((getNode st c).value))
          | none => some (st, some ((getNode st c).value))
    if hasF flags (fDirty ||| fPendingComputed) then
      match processComputedUpdate fuel st c flags with
      | none => none
      | some (st, true) => some (st, none)
      | some (st, false) => fin st
    else fin st
  termination_by structural fuel _ _ => fuel

/-- Transcribes `processComputedUpdate(computed, flags)`: recompute when
`Dirty`, or run `checkDirty` when only pending; a clean check clears
`PendingComputed` (from the passed-in `flags` word).  The `Bool` is the
threw flag. -/
def processComputedUpdate : Nat → State → NodeId → Nat → Option (State × Bool)
  | 0, _, _, _ => none
  | fuel + 1, st, c, flags =>
    if hasF flags fDirty then pcuUpdate fuel st c
    else
      match (getNode st c).deps with
      | none =>
          some (updNode st c (fun n => { n with flags := clrF flags fPendingComputed }), false)
      | some d =>
          match cdTop fuel st d 0 with
          | none => none
          | some (st, none) => some (st, true)
          | some (st, some true) => pcuUpdate fuel st c
          | some (st, some false) =>
              some (updNode st c (fun n => { n with flags := clrF flags fPendingComputed }),
                    false)
  termination_by structural fuel _ _ _ => fuel

/-- The update half of `processComputedUpdate`: run `updateComputed` and,
if the value changed, shallow-propagate to direct subscribers. -/
def pcuUpdate : Nat → State → NodeId → Option (State × Bool)
  | 0, _, _ => none
  | fuel + 1, st, c =>
    match updComputed fuel st c with
    | none => none
    | some (st, none) => some (st, true)
    | some (st, some changed) =>
        if changed then
          match (getNode st c).subs with
          | some subs =>
              match shallowPropagate fuel st subs with
              | none => none
              | some st => some (st, false)
          | none => some (st, false)
        else some (st, false)
  termination_by structural fuel _ _ => fuel

/-- Transcribes the write path of `signalGetterSetter`: store the value;
when it differs from the old one, propagate and, outside a batch, drain
the effect queue. -/
def sigWrite : Nat → State → NodeId → Nat → Option (State × Bool)
  | 0, _, _, _ => none
  | fuel + 1, st, s, v =>
    let oldValue := (getNode st s).value
    let st := updNode st s (fun n => { n with value := v })
    if oldValue = v then some (st, false)
    else
      match (getNode st s).subs with
      | some subs =>
          match propagate fuel st subs with
          | none => none
          | some st =>
              if st.batchDepth = 0 then processEffectNotifications fuel st
              else some (st, false)
      | none => some (st, false)
  termination_by structural fuel _ _ _ => fuel

/-- Runs a deep-embedded effect body, accumulating the values observed by
its reads; the `Bool` is the threw flag. -/
def runBody : Nat → State → List Act → List Nat → Option (State × List Nat × Bool)
  | 0, _, _, _ => none
  | fuel + 1, st, acts, obs =>
    match acts with
    | [] => some (st, obs, false)
    | a :: rest =>
        match a with
        | .readSig s =>
            match sigRead fuel st s with
            | none => none
            | some (st, v) => runBody fuel st rest (obs ++ [v])
        | .readComp c =>
            match computedGetter fuel st c with
            | none => none
            | some (st, none) => some (st, obs, true)
            | some (st, some v) => runBody fuel st rest (obs ++ [v])
        | .writeSig s v =>
            match sigWrite fuel st s v with
            | none => none
            | some (st, true) => some (st, obs, true)
            | some (st, false) => runBody fuel st rest obs
        | .pause => runBody fuel (pauseTracking st) rest obs
        | .resume => runBody fuel (resumeTracking st) rest obs
        | .sbatch => runBody fuel (startBatchF st) rest obs
        | .ebatch =>
            match endBatchF fuel st with
            | none => none
            | some (st, true) => some (st, obs, true)
            | some (st, false) => runBody fuel st rest obs
        | .throwE => some (st, obs, true)
  termination_by structural fuel _ _ _ => fuel

/-- Transcribes `runEffect(e)`: swap in the effect as active subscriber,
run its body in a tracking session; the `finally` restores the active
subscriber and ends tracking whether or not the body threw.  A completed
run is logged with its observations. -/
def runEffect : Nat → State → NodeId → Option (State × Bool)
  | 0, _, _ => none
  | fuel + 1, st, e =>
    let prevSub := st.activeSub
    let st := { st with activeSub := some e }
    let st := startTracking st e
    match runBody fuel st (getNode st e).body [] with
    | none => none
    | some (st, obs, threw) =>
        let st := if threw then st else { st with log := st.log ++ [Ev.run e obs] }
        let st := { st with activeSub := prevSub }
        match endTracking fuel st e with
        | none => none
        | some st => some (st, threw)
  termination_by structural fuel _ _ => fuel

/-- Transcribes the `notifyEffect` policy of the primitives layer:
dispatch on `isScope`.  Instruments the log with the invocation.  Result
`some (st, none)` = the notified body threw. -/
def notifyEffectCb : Nat → State → NodeId → Option (State × Option Bool)
  | 0, _, _ => none
  | fuel + 1, st, e =>
    let st := { st with log := st.log ++ [Ev.notify e] }
    if (getNode st e).isScope then notifyEffectScopeFn fuel st e
    else notifyEffectFn fuel st e
  termination_by structural fuel _ _ => fuel

/-- Transcribes the internal `notifyEffect(e)`: rerun when dirty (directly
or after a confirming dirty check), otherwise cascade into pending inner
effects; always reports handled. -/
def notifyEffectFn : Nat → State → NodeId → Option (State × Option Bool)
  | 0, _, _ => none
  | fuel + 1, st, e =>
    let flags := (getNode st e).flags
    if hasF flags fDirty then
      match runEffect fuel st e with
      | none => none
      | some (st, true) => some (st, none)
      | some (st, false) => some (st, some true)
    else if hasF flags fPendingComputed then
      match updateDirtyFlag fuel st e flags with
      | none => none
      | some (st, none) => some (st, none)
      | some (st, some true) =>
          match runEffect fuel st e with
          | none => none
          | some (st, true) => some (st, none)
          | some (st, false) => some (st, some true)
      | some (st, some false) =>
          match ppie fuel st e ((getNode st e).flags) with
          | none => none
          | some (st, true) => some (st, none)
          | some (st, false) => some (st, some true)
    else
      match ppie fuel st e ((getNode st e).flags) with
      | none => none
      | some (st, true) => some (st, none)
      | some (st, false) => some (st, some true)
  termination_by structural fuel _ _ => fuel

/-- Transcribes `notifyEffectScope(e)`: only cascades into pending inner
effects; reports handled exactly when `PendingEffect` was set. -/
def notifyEffectScopeFn : Nat → State → NodeId → Option (State × Option Bool)
  | 0, _, _ => none
  | fuel + 1, st, e =>
    let flags := (getNode st e).flags
    if hasF flags fPendingEffect then
      match ppie fuel st e flags with
      | none => none
      | some (st, true) => some (st, none)
      | some (st, false) => some (st, some true)
    else some (st, some false)
  termination_by structural fuel _ _ => fuel

/-- Transcribes `updateDirtyFlag(sub, flags)`: run `checkDirty` over the
dependency list and set `Dirty` or clear `PendingComputed` accordingly. -/
def updateDirtyFlag : Nat → State → NodeId → Nat → Option (State × Option Bool)
  | 0, _, _, _ => none
  | fuel + 1, st, sub, flags =>
    match (getNode st sub).deps with
    | none => some (st, some false)
    | some d =>
        match cdTop fuel st d 0 with
        | none => none
        | some (st, none) => some (st, none)
        | some (st, some true) =>
            some (updNode st sub (fun n => { n with flags := flags ||| fDirty }), some true)
        | some (st, some false) =>
            some (updNode st sub (fun n => { n with flags := clrF flags fPendingComputed }),
                  some false)

/-- Transcribes `processPendingInnerEffects(sub, flags)`: clear
`PendingEffect` and notify every propagated inner effect in the
dependency list.  The `Bool` is the threw flag. -/
def ppie : Nat → State → NodeId → Nat → Option (State × Bool)
  | 0, _, _, _ => none
  | fuel + 1, st, sub, flags =>
    if hasF flags fPendingEffect then
      let st := updNode st sub (fun n => { n with flags := clrF flags fPendingEffect })
      match (getNode st sub).deps with
      | none => some (st, false)
      | some l => ppieGo fuel st l
    else some (st, false)
  termination_by structural fuel _ _ _ => fuel

/-- The dependency-list walk of `processPendingInnerEffects`. -/
def ppieGo : Nat → State → LinkId → Option (State × Bool)
  | 0, _, _ => none
  | fuel + 1, st, link =>
    let dep := (getLink st link).dep
    if (getNode st dep).isSub && hasF (getNode st dep).flags fEffect
        && hasF (getNode st dep).flags fPropagated then
      match notifyEffectCb fuel st dep with
      | none => none
      | some (st, none) => some (st, true)
      | some (st, some _) =>
          match (getLink st link).nextDep with
          | some nd => ppieGo fuel st nd
          | none => some (st, false)
    else
      match (getLink st link).nextDep with
      | some nd => ppieGo fuel st nd
      | none => some (st, false)
  termination_by structural fuel _ _ => fuel

/-- Transcribes `processEffectNotifications()`: repeatedly pop the queue
head (unthreading it from the previous tail's `depsTail.nextDep`) and
notify it; an unhandled notification only clears `Notified`.  The `Bool`
is the threw flag (an exception in an effect body escapes the drain). -/
def processEffectNotifications : Nat → State → Option (State × Bool)
  | 0, _ => none
  | fuel + 1, st =>
    match st.queuedEffects with
    | none => some (st, false)
    | some effect =>
        match (getNode st effect).depsTail with
        | none => some (st, false)
        | some depsTail =>
            let st :=
              match (getLink st depsTail).nextDep with
              | some queuedNext =>
                  let st := updLink st depsTail (fun l => { l with nextDep := none })
                  { st with queuedEffects := some ((getLink st queuedNext).sub) }
              | none => { st with queuedEffects := none, queuedEffectsTail := none }
            match notifyEffectCb fuel st effect with
            | none => none
            | some (st, none) => some (st, true)
            | some (st, some handled) =>
                let st :=
                  if handled then st
                  else updNode st effect (fun n => { n with flags := clrF n.flags fNotified })
                processEffectNotifications fuel st
  termination_by structural fuel _ => fuel

/-- Transcribes `endBatch()`: decrement the counter and drain the queue
exactly when it reaches zero (a decrement past zero leaves it negative
and skips the drain). -/
def endBatchF : Nat → State → Option (State × Bool)
  | 0, _ => none
  | fuel + 1, st =>
    let st := { st with batchDepth := st.batchDepth - 1 }
    if st.batchDepth = 0 then processEffectNotifications fuel st
    else some (st, false)
  termination_by structural fuel _ => fuel

end

/-- Transcribes `checkDirty(link)` (entry point, stack depth 0). -/
def checkDirty (fuel : Nat) (st : State) (link : LinkId) : Option (State × Option Bool) :=
  cdTop fuel st link 0

/-- Transcribes `runEffectScope(e, fn)`: run the body with the scope as
active scope (the active subscriber is untouched). -/
def runEffectScope : Nat → State → NodeId → Option (State × Bool)
  | 0, _, _ => none
  | fuel + 1, st, e =>
    let prevScope := st.activeScope
    let st := { st with activeScope := some e }
    let st := startTracking st e
    match runBody fuel st (getNode st e).body [] with
    | none => none
    | some (st, _, threw) =>
        let st := { st with activeScope := prevScope }
        match endTracking fuel st e with
        | none => none
        | some st => some (st, threw)

/-- Transcribes `effect(fn)` for a pre-allocated effect node: link it
beneath the active subscriber or scope, then run it once.  The stop
handle it returns is modelled by `effectStop`. -/
def effectCreate (fuel : Nat) (st : State) (e : NodeId) : Option (State × Bool) :=
  match st.activeSub with
  | some a =>
      match linkF fuel st e a with
      | none => none
      | some (st, _) => runEffect fuel st e
  | none =>
      match st.activeScope with
      | some sc =>
          match linkF fuel st e sc with
          | none => none
          | some (st, _) => runEffect fuel st e
      | none => runEffect fuel st e

/-- Transcribes `effectScope(fn)` for a pre-allocated scope node. -/
def effectScopeCreate (fuel : Nat) (st : State) (e : NodeId) : Option (State × Bool) :=
  runEffectScope fuel st e

/-- Transcribes `effectStop`: a tracking session with an empty body, i.e.
`startTracking` immediately followed by `endTracking`. -/
def effectStop (fuel : Nat) (st : State) (e : NodeId) : Option State :=
  endTracking fuel (startTracking st e) e

/-- A fresh signal node holding `v` (`signal(v)`). -/
def mkSignal (v : Nat) : Node := { nodeDefault with value := v }

/-- A fresh computed node (`computed(getter)`): flags start as
`Computed | Dirty`. -/
def mkComputed (g : GExp) : Node :=
  { nodeDefault with flags := fComputed ||| fDirty, isSub := true, getter := g }

/-- A fresh effect node (`effect(fn)` before its first run). -/
def mkEffect (body : List Act) : Node :=
  { nodeDefault with flags := fEffect, isSub := true, body := body }

/-- A fresh effect-scope node (`effectScope(fn)` before its run). -/
def mkScope (body : List Act) : Node :=
  { nodeDefault with flags := fEffect, isSub := true, isScope := true, body := body }

/-- The initial state over a given node arena. -/
def initState (ns : List Node) : State :=
  { nodes := ns, links := [], nextLinkId := 0, queuedEffects := none,
    queuedEffectsTail := none, batchDepth := 0, activeSub := none,
    activeScope := none, pauseStack := [], log := [] }

/-- The completed effect runs of a node, in log order, each with the
values its reads observed. -/
def runsOf (l : List Ev) (e : NodeId) : List (List Nat) :=
  l.filterMap fun ev =>
    match ev with
    | .run e1 obs => if e1 = e then some obs else none
    | _ => none

/-- The derivation invocations (`updateComputed` policy calls) of a node
recorded in the log. -/
def updsOf (l : List Ev) (c : NodeId) : Nat :=
  (l.filter fun ev =>
    match ev with
    | .updC c1 => c1 = c
    | _ => false).length

/-! ### Concrete scenario states used by the claim theorems -/

/-- Nodes for the link-deduplication scenario: signals 0 (D) and 1 (E),
effects 2 (S) and 3 (S2) with empty bodies (linked manually). -/
def c1Start : State := initState [mkSignal 0, mkSignal 0, mkEffect [], mkEffect []]

/-- Reached by: a tracking session of subscriber 2 linking dependency 1
then dependency 0; a session of subscriber 3 linking dependency 0; then a
fresh `startTracking` of subscriber 2 (cursor reset to before the first
dependency).  Link 1 is a live (dep 0, sub 2) edge present in both lists,
but it is neither the cursor, the cursor successor (that is link 0, to
dependency 1), nor dependency 0's most recent subscriber edge (that is
link 2, to subscriber 3). -/
def c1Pre : Option State :=
  (linkF 20 (startTracking c1Start 2) 1 2).bind fun p =>
  (linkF 20 p.1 0 2).bind fun p =>
  (endTracking 20 p.1 2).bind fun st =>
  (linkF 20 (startTracking st 3) 0 3).bind fun p =>
  (endTracking 20 p.1 3).map fun st =>
  startTracking st 2

/-- The result of calling `link(0, 2)` on `c1Pre` even though edge 1
already connects the pair. -/
def c1Post : Option (State × Option LinkId) :=
  c1Pre.bind fun st => linkF 20 st 0 2

/-- A subscriber (node 1) whose tracking cursor sits on link 0, an edge to
dependency 0: the configuration of `link`'s first fast path. -/
def c1W : State :=
  { initState [mkSignal 3, { mkEffect [] with deps := some 0, depsTail := some 0 }] with
    links := [{ dep := 0, sub := 1, prevSub := none, nextSub := none, nextDep := none }],
    nextLinkId := 1 }

/-- A subscriber (node 2) whose cursor sits on link 0 (to dependency 0)
while link 1, the cursor's successor, is an edge to dependency 1: the
configuration of `link`'s second fast path (cursor advance). -/
def c1W2 : State :=
  { initState [mkSignal 3, mkSignal 4,
      { mkEffect [] with deps := some 0, depsTail := some 0 }] with
    links := [{ dep := 0, sub := 2, prevSub := none, nextSub := none, nextDep := some 1 },
              { dep := 1, sub := 2, prevSub := none, nextSub := none, nextDep := none }],
    nextLinkId := 2 }

/-- A subscriber (node 1) with a reset cursor (`depsTail = none`) whose
first dependency link (link 0) already points at dependency 0: the second
fast path taken right after `startTracking`. -/
def c1W3 : State :=
  { initState [mkSignal 3, { mkEffect [] with deps := some 0 }] with
    links := [{ dep := 0, sub := 1, prevSub := none, nextSub := none, nextDep := none }],
    nextLinkId := 1 }

/-- Subscriber 3's cursor sits on link 1 (to dependency 1) with successor
link 2 (to dependency 2), while dependency 0's most recent subscriber
edge, link 0, connects it to subscriber 3 and lies within the tracked
range `deps .. depsTail`: the configuration of `link`'s third fast path
with the cursor successor present. -/
def c1W4 : State :=
  { initState [{ mkSignal 3 with subs := some 0, subsTail := some 0 }, mkSignal 4,
      mkSignal 5, { mkEffect [] with deps := some 0, depsTail := some 1 }] with
    links := [{ dep := 0, sub := 3, prevSub := none, nextSub := none, nextDep := some 1 },
              { dep := 1, sub := 3, prevSub := none, nextSub := none, nextDep := some 2 },
              { dep := 2, sub := 3, prevSub := none, nextSub := none, nextDep := none }],
    nextLinkId := 3 }

/-- Like `c1W4` but the cursor (link 1) is the last dependency link, so
the third fast path is reached with no cursor successor. -/
def c1W5 : State :=
  { initState [{ mkSignal 3 with subs := some 0, subsTail := some 0 }, mkSignal 4,
      { mkEffect [] with deps := some 0, depsTail := some 1 }] with
    links := [{ dep := 0, sub := 2, prevSub := none, nextSub := none, nextDep := some 1 },
              { dep := 1, sub := 2, prevSub := none, nextSub := none, nextDep := none }],
    nextLinkId := 2 }

/-- A single signal holding 7, for the same-value-write witness. -/
def c2W : State := initState [mkSignal 7]

/-- Signals 0 (holding `v1`) and 1 (holding `v2`) and effect 2 reading
both: the batch-coalescing scenario of the spec, for arbitrary initial
values. -/
def c3Start (v1 v2 : Nat) : State :=
  initState [mkSignal v1, mkSignal v2, mkEffect [.readSig 0, .readSig 1]]

/-- The state `effect` creation produces from `c3Start`: the body has run
once observing `(v1, v2)`, links 0 and 1 connect both signals to the
effect, and the log records that single run. -/
def c3StA (v1 v2 : Nat) : State :=
  { nodes := [
      { subs := some 0, subsTail := some 0, deps := none, depsTail := none,
        flags := 0, isSub := false, isScope := false, value := v1,
        getter := .lit 0, body := [] },
      { subs := some 1, subsTail := some 1, deps := none, depsTail := none,
        flags := 0, isSub := false, isScope := false, value := v2,
        getter := .lit 0, body := [] },
      { subs := none, subsTail := none, deps := some 0, depsTail := some 1,
        flags := 2, isSub := true, isScope := false, value := 0,
        getter := .lit 0, body := [.readSig 0, .readSig 1] }],
    links := [
      { dep := 0, sub := 2, prevSub := none, nextSub := none, nextDep := some 1 },
      { dep := 1, sub := 2, prevSub := none, nextSub := none, nextDep := none }],
    nextLinkId := 2, queuedEffects := none, queuedEffectsTail := none,
    batchDepth := 0, activeSub := none, activeScope := none, pauseStack := [],
    log := [Ev.run 2 [v1, v2]] }

/-- After `startBatch` and the first in-batch write (`w1` into signal 0):
the value is stored, effect 2 is `Effect | Notified | Dirty` (42) and
queued, the batch counter is 1, and the log is unchanged. -/
def c3StC (v1 v2 w1 : Nat) : State :=
  { nodes := [
      { subs := some 0, subsTail := some 0, deps := none, depsTail := none,
        flags := 0, isSub := false, isScope := false, value := w1,
        getter := .lit 0, body := [] },
      { subs := some 1, subsTail := some 1, deps := none, depsTail := none,
        flags := 0, isSub := false, isScope := false, value := v2,
        getter := .lit 0, body := [] },
      { subs := none, subsTail := none, deps := some 0, depsTail := some 1,
        flags := 42, isSub := true, isScope := false, value := 0,
        getter := .lit 0, body := [.readSig 0, .readSig 1] }],
    links := [
      { dep := 0, sub := 2, prevSub := none, nextSub := none, nextDep := some 1 },
      { dep := 1, sub := 2, prevSub := none, nextSub := none, nextDep := none }],
    nextLinkId := 2, queuedEffects := some 2, queuedEffectsTail := some 2,
    batchDepth := 1, activeSub := none, activeScope := none, pauseStack := [],
    log := [Ev.run 2 [v1, v2]] }

/-- After the second in-batch write (`w2` into signal 1): both new values
are stored, the effect is still only queued, and the log still records
only the initial run. -/
def c3StD (v1 v2 w1 w2 : Nat) : State :=
  { nodes := [
      { subs := some 0, subsTail := some 0, deps := none, depsTail := none,
        flags := 0, isSub := false, isScope := false, value := w1,
        getter := .lit 0, body := [] },
      { subs := some 1, subsTail := some 1, deps := none, depsTail := none,
        flags := 0, isSub := false, isScope := false, value := w2,
        getter := .lit 0, body := [] },
      { subs := none, subsTail := none, deps := some 0, depsTail := some 1,
        flags := 42, isSub := true, isScope := false, value := 0,
        getter := .lit 0, body := [.readSig 0, .readSig 1] }],
    links := [
      { dep := 0, sub := 2, prevSub := none, nextSub := none, nextDep := some 1 },
      { dep := 1, sub := 2, prevSub := none, nextSub := none, nextDep := none }],
    nextLinkId := 2, queuedEffects := some 2, queuedEffectsTail := some 2,
    batchDepth := 1, activeSub := none, activeScope := none, pauseStack := [],
    log := [Ev.run 2 [v1, v2]] }

/-- After `endBatch` on `c3StD`: the counter is back at 0, the queue is
empty, and the log shows exactly one more notification and one more run,
observing both new values. -/
def c3StE (v1 v2 w1 w2 : Nat) : State :=
  { nodes := [
      { subs := some 0, subsTail := some 0, deps := none, depsTail := none,
        flags := 0, isSub := false, isScope := false, value := w1,
        getter := .lit 0, body := [] },
      { subs := some 1, subsTail := some 1, deps := none, depsTail := none,
        flags := 0, isSub := false, isScope := false, value := w2,
        getter := .lit 0, body := [] },
      { subs := none, subsTail := none, deps := some 0, depsTail := some 1,
        flags := 2, isSub := true, isScope := false, value := 0,
        getter := .lit 0, body := [.readSig 0, .readSig 1] }],
    links := [
      { dep := 0, sub := 2, prevSub := none, nextSub := none, nextDep := some 1 },
      { dep := 1, sub := 2, prevSub := none, nextSub := none, nextDep := none }],
    nextLinkId := 2, queuedEffects := none, queuedEffectsTail := none,
    batchDepth := 0, activeSub := none, activeScope := none, pauseStack := [],
    log := [Ev.run 2 [v1, v2], Ev.notify 2, Ev.run 2 [w1, w2]] }

/-- Signal 0 (=2), computed 1 = `sig0 / 2`, computed 2 = `comp1 + 1`: a
chain whose middle link rederives to an unchanged value. -/
def c4Start : State :=
  initState [mkSignal 2, mkComputed (.div2 (.readSig 0)),
             mkComputed (.add (.readComp 1) (.lit 1))]

/-- The state `c4Start` reaches after a first (caching) read of computed
2 followed by a write of signal 0 from 2 to 3: computed 1 is
`Computed | Notified | Dirty` (41), computed 2 is
`Computed | Notified | PendingComputed` (73) — pending but not dirty —
and `2 / 2 = 3 / 2 = 1`, so no transitive dependency of computed 2 has
actually changed value. -/
def c4W : State :=
  { nodes := [
      { subs := some 0, subsTail := some 0, deps := none, depsTail := none,
        flags := 0, isSub := false, isScope := false, value := 3,
        getter := .lit 0, body := [] },
      { subs := some 1, subsTail := some 1, deps := some 0, depsTail := some 0,
        flags := 41, isSub := true, isScope := false, value := 1,
        getter := .div2 (.readSig 0), body := [] },
      { subs := none, subsTail := none, deps := some 1, depsTail := some 1,
        flags := 73, isSub := true, isScope := false, value := 2,
        getter := .add (.readComp 1) (.lit 1), body := [] }],
    links := [
      { dep := 0, sub := 1, prevSub := none, nextSub := none, nextDep := none },
      { dep := 1, sub := 2, prevSub := none, nextSub := none, nextDep := none }],
    nextLinkId := 2, queuedEffects := none, queuedEffectsTail := none,
    batchDepth := 0, activeSub := none, activeScope := none, pauseStack := [],
    log := [Ev.updC 2, Ev.updC 1] }

/-- The state the dirty check over computed 2's dependency list produces
from `c4W`: it rederives computed 1 (one more `updC 1` in the log, its
`Dirty` cleared by the tracking session), finds the value unchanged, and
reports clean. -/
def c4W1 : State :=
  { nodes := [
      { subs := some 0, subsTail := some 0, deps := none, depsTail := none,
        flags := 0, isSub := false, isScope := false, value := 3,
        getter := .lit 0, body := [] },
      { subs := some 1, subsTail := some 1, deps := some 0, depsTail := some 0,
        flags := 1, isSub := true, isScope := false, value := 1,
        getter := .div2 (.readSig 0), body := [] },
      { subs := none, subsTail := none, deps := some 1, depsTail := some 1,
        flags := 73, isSub := true, isScope := false, value := 2,
        getter := .add (.readComp 1) (.lit 1), body := [] }],
    links := [
      { dep := 0, sub := 1, prevSub := none, nextSub := none, nextDep := none },
      { dep := 1, sub := 2, prevSub := none, nextSub := none, nextDep := none }],
    nextLinkId := 2, queuedEffects := none, queuedEffectsTail := none,
    batchDepth := 0, activeSub := none, activeScope := none, pauseStack := [],
    log := [Ev.updC 2, Ev.updC 1, Ev.updC 1] }

/-- Signal 0 (=1) with effect 1 subscribed to it, for the
propagation-runs-no-user-code witness. -/
def c5WPre : State :=
  ((effectCreate 20 (initState [mkSignal 1, mkEffect [.readSig 0]]) 1).getD
    (c1Start, false)).1

def c5WPost : State := (propagate 20 c5WPre 0).getD c5WPre

/-- The state `effectStop` produces from `c3StA` (the two-signal effect
scenario after creation): the effect's dependency list and cursor are
empty, both signals' subscriber lists are empty, and the two stale link
records remain in the arena fully detached. -/
def c6StB (v1 v2 : Nat) : State :=
  { nodes := [
      { subs := none, subsTail := none, deps := none, depsTail := none,
        flags := 0, isSub := false, isScope := false, value := v1,
        getter := .lit 0, body := [] },
      { subs := none, subsTail := none, deps := none, depsTail := none,
        flags := 0, isSub := false, isScope := false, value := v2,
        getter := .lit 0, body := [] },
      { subs := none, subsTail := none, deps := none, depsTail := none,
        flags := 2, isSub := true, isScope := false, value := 0,
        getter := .lit 0, body := [.readSig 0, .readSig 1] }],
    links := [
      { dep := 0, sub := 2, prevSub := none, nextSub := none, nextDep := some 1 },
      { dep := 1, sub := 2, prevSub := none, nextSub := none, nextDep := none }],
    nextLinkId := 2, queuedEffects := none, queuedEffectsTail := none,
    batchDepth := 0, activeSub := none, activeScope := none, pauseStack := [],
    log := [Ev.run 2 [v1, v2]] }

/-- Computed 0 (derivation `5`) and effect scope 1 whose body reads the
computed strictly between `pauseTracking` and `resumeTracking`. -/
def c7Start : State :=
  initState [mkComputed (.lit 5), mkScope [.pause, .readComp 0, .resume]]

def c7Run : Option State := (effectScopeCreate 20 c7Start 1).map (·.1)

/-- A signal (=5) and a clean computed (cached 9), for the amended
paused-read theorem's witness. -/
def c7W : State :=
  initState [mkSignal 5, { mkComputed (.lit 9) with flags := fComputed, value := 9 }]

/-- Signal 0 (=7) and effect 1 whose body reads it and then throws. -/
def c8EffStart : State := initState [mkSignal 7, mkEffect [.readSig 0, .throwE]]

def c8EffRes : Option (State × Bool) := effectCreate 20 c8EffStart 1

/-- Signal 0 (=7), computed 1 whose derivation reads it and then throws,
and effect 2 whose body reads the computed. -/
def c8CompStart : State :=
  initState [mkSignal 7, mkComputed (.add (.readSig 0) .throwE), mkEffect [.readComp 1]]

def c8CompRes : Option (State × Bool) := effectCreate 20 c8CompStart 2

/-- The state `runEffect` produces from `c8EffStart`: the throwing run
linked signal 0 to effect 1 (link 0) before the throw, the link survives,
`Tracking` is cleared, the active subscriber is restored to `none`, and
no completed run is logged. -/
def c8RunRes : State :=
  { nodes := [
      { subs := some 0, subsTail := some 0, deps := none, depsTail := none,
        flags := 0, isSub := false, isScope := false, value := 7,
        getter := .lit 0, body := [] },
      { subs := none, subsTail := none, deps := some 0, depsTail := some 0,
        flags := 2, isSub := true, isScope := false, value := 0,
        getter := .lit 0, body := [.readSig 0, .throwE] }],
    links := [
      { dep := 0, sub := 1, prevSub := none, nextSub := none, nextDep := none }],
    nextLinkId := 1, queuedEffects := none, queuedEffectsTail := none,
    batchDepth := 0, activeSub := none, activeScope := none, pauseStack := [],
    log := [] }

/-- Signal 0 (=1) with effect 1 subscribed, for the batch-underflow
scenario. -/
def c9Start : State := initState [mkSignal 1, mkEffect [.readSig 0]]

def c9Created : Option State := (effectCreate 20 c9Start 1).map (·.1)

/-- An unpaired `endBatch` on a state whose batch counter is zero. -/
def c9Under : Option (State × Bool) := c9Created.bind fun st => endBatchF 20 st

/-- A value-changing write performed outside any batch but after the
counter underflowed. -/
def c9After : Option State :=
  (c9Under.map (·.1)).bind fun st => (sigWrite 20 st 0 9).map (·.1)

/-- The empty state, for the underflow witness. -/
def c9W : State := initState []

/-- A signal and an already-detached effect (empty dependency list,
quiescent flags), for the stop-idempotence witness. -/
def c10W : State := initState [mkSignal 1, mkEffect []]

/-! ### Arena helper lemmas -/

theorem list_set_getD_self {α : Type} (l : List α) (i : Nat) (d : α) :
    l.set i (l.getD i d) = l := by
  induction l generalizing i with
  | nil => rfl
  | cons a t ih =>
      cases i with
      | zero => simp
      | succ j => simpa using ih j

theorem list_getD_set_self {α : Type} (l : List α) (i : Nat) (a d : α) :
    (l.set i a).getD i d = if i < l.length then a else d := by
  induction l generalizing i with
  | nil => simp
  | cons b t ih =>
      cases i with
      | zero => simp
      | succ j => simpa using ih j

theorem list_set_set {α : Type} (l : List α) (i : Nat) (a b : α) :
    (l.set i a).set i b = l.set i b := by
  induction l generalizing i with
  | nil => rfl
  | cons c t ih =>
      cases i with
      | zero => rfl
      | succ j => simp [ih j]

theorem getNode_updNode_self (st : State) (i : NodeId) (f : Node → Node)
    (h : i < st.nodes.length) : getNode (updNode st i f) i = f (getNode st i) := by
  simp [getNode, updNode, list_getD_set_self, h]

/-! ### Flag arithmetic (flag words are 8-bit; checked by enumeration) -/

theorem clrF_fixed_of_clear :
    ∀ f, f < 256 → f &&& (fTracking ||| fNotified ||| fRecursed ||| fPropagated) = 0 →
      clrF f (fNotified ||| fRecursed ||| fPropagated) = f := by decide

theorem clrF_tracking_roundtrip :
    ∀ f, f < 256 → f &&& (fTracking ||| fNotified ||| fRecursed ||| fPropagated) = 0 →
      clrF (f ||| fTracking) fTracking = f := by decide

/-! ### Claim theorems -/

/-- C2: writing a signal a value equal (under the source's `!==`
comparison) to the one it already holds is a complete no-op: the
resulting state is the input state — no subscriber is marked, no effect
is enqueued or run, no computed rederives, and every node's flags and
every edge are unchanged — and nothing is thrown. -/
theorem C2_write_same_value_noop (fuel : Nat) (st : State) (s : NodeId) (v : Nat)
    (h : (getNode st s).value = v) :
    sigWrite (fuel + 1) st s v = some (st, false) := by
  have mkeq : (fun n => { n with value := v }) (getNode st s) = getNode st s := by
    rw [← h]
  have hupd : updNode st s (fun n => { n with value := v }) = st := by
    unfold updNode
    rw [mkeq]
    show { st with nodes := st.nodes.set s (st.nodes.getD s nodeDefault) } = st
    rw [list_set_getD_self]
  simp only [sigWrite]
  rw [hupd, if_pos h]

/-- Witness for C2 at a concrete signal holding 7. -/
theorem C2_write_same_value_noop_witness :
    sigWrite (3 + 1) c2W 0 7 = some (c2W, false) :=
  C2_write_same_value_noop 3 c2W 0 7 (by decide)

/-- C10: once a stop handle has detached its effect or scope (empty
dependency list, cursor reset, quiescent flags), every further call of
the handle returns the state completely unchanged — it unlinks nothing
and touches no node's flags, values or edges — and produces no
exception. -/
theorem C10_stop_idempotent (fuel : Nat) (st : State) (e : NodeId)
    (hlen : e < st.nodes.length)
    (hdeps : (getNode st e).deps = none)
    (htail : (getNode st e).depsTail = none)
    (hflags : (getNode st e).flags &&& (fTracking ||| fNotified ||| fRecursed ||| fPropagated) = 0)
    (hlt : (getNode st e).flags < 256) :
    effectStop fuel st e = some st := by
  have hcl1 := clrF_fixed_of_clear ((getNode st e).flags) hlt hflags
  have hcl2 := clrF_tracking_roundtrip ((getNode st e).flags) hlt hflags
  have hnode1 : getNode (startTracking st e) e =
      { getNode st e with depsTail := none, flags := (getNode st e).flags ||| fTracking } := by
    unfold startTracking
    rw [getNode_updNode_self st e _ hlen, hcl1]
  have htail1 : (getNode (startTracking st e) e).depsTail = none := by rw [hnode1]
  have hdeps1 : (getNode (startTracking st e) e).deps = none := by
    rw [hnode1]
    exact hdeps
  have hback : (fun n => { n with flags := clrF n.flags fTracking })
      (getNode (startTracking st e) e) = getNode st e := by
    rw [hnode1]
    show ({ getNode st e with depsTail := none, flags := clrF ((getNode st e).flags ||| fTracking) fTracking } : Node) = getNode st e
    rw [hcl2, ← htail]
  have hnodes : (startTracking st e).nodes =
      st.nodes.set e { getNode st e with depsTail := none, flags := (getNode st e).flags ||| fTracking } := by
    unfold startTracking updNode
    simp only [hcl1]
  unfold effectStop endTracking
  rw [htail1, hdeps1]
  show some (updNode (startTracking st e) e
      (fun n => { n with flags := clrF n.flags fTracking })) = some st
  unfold updNode
  rw [hback, hnodes, list_set_set]
  show some { st with nodes := st.nodes.set e (st.nodes.getD e nodeDefault) } = some st
  rw [list_set_getD_self]

/-- Witness for C10 at a concrete detached effect node. -/
theorem C10_stop_idempotent_witness : effectStop 7 c10W 1 = some c10W :=
  C10_stop_idempotent 7 c10W 1 (by decide) (by decide) (by decide) (by decide) (by decide)

/-- C9 (amended): an unpaired `endBatch` silently decrements the batch
counter below zero — no contract violation is surfaced to the caller and
the drain is skipped — and an unpaired `resumeTracking` silently pops the
empty pause stack, leaving the active subscriber cleared. -/
theorem C9_underflow_silent :
    (∀ fuel st, st.batchDepth = 0 →
      endBatchF (fuel + 1) st = some ({ st with batchDepth := -1 }, false)) ∧
    (∀ st, st.pauseStack = [] → resumeTracking st = { st with activeSub := none }) := by
  constructor
  · intro fuel st h
    simp only [endBatchF, h]
    norm_num
  · intro st h
    simp only [resumeTracking, h]

/-- Witness for C9 on the empty state (counter 0, empty pause stack). -/
theorem C9_underflow_silent_witness :
    endBatchF (5 + 1) c9W = some ({ c9W with batchDepth := -1 }, false) ∧
    resumeTracking c9W = { c9W with activeSub := none } :=
  ⟨C9_underflow_silent.1 5 c9W (by decide), C9_underflow_silent.2 c9W (by decide)⟩

/-- C9, as stated, is violated by the code: an unpaired `endBatch` on a
zero counter returns normally — nothing is surfaced to the caller — and
leaves the counter at −1; afterwards a value-changing write outside any
batch marks the subscribed effect `Dirty` and enqueues it but never
drains the queue, so the effect never runs: the underflow is silently
ignored and global state is corrupted. -/
theorem C9_underflow_counterexample :
    (c9Created.map fun st => (st.batchDepth, runsOf st.log 1)) = some (0, [[1]]) ∧
    (c9Under.map fun p => (p.2, p.1.batchDepth)) = some (false, -1) ∧
    (c9After.map fun st =>
      (st.batchDepth, runsOf st.log 1, st.queuedEffects, (getNode st 0).value,
       hasF (getNode st 1).flags fDirty)) =
      some (-1, [[1]], some 1, 9, true) :=
  ⟨by decide, by decide, by decide⟩

/-- C1 (amended): `link` allocates nothing and leaves the dependency
graph unchanged (except for advancing the subscriber's cursor) whenever
one of its three fast paths finds the existing edge: (1) the edge is the
subscriber's cursor (`depsTail`); (2) it is the cursor's successor (the
cursor advances onto it; right after `startTracking`, with the cursor
reset, the successor is the subscriber's first dependency link); (3) it
is the dependency's most recently added subscriber edge and lies within
the subscriber's tracked range (`isValidLink`), whether or not the
cursor has a successor.  The five conjuncts cover every non-allocating
run of `link`. -/
theorem C1_link_idempotent_fastpaths :
    (∀ fuel st dep sub cd, (getNode st sub).depsTail = some cd →
       (getLink st cd).dep = dep →
       linkF fuel st dep sub = some (st, none)) ∧
    (∀ fuel st dep sub cd nd, (getNode st sub).depsTail = some cd →
       (getLink st cd).dep ≠ dep → (getLink st cd).nextDep = some nd →
       (getLink st nd).dep = dep →
       linkF fuel st dep sub =
         some (updNode st sub (fun n => { n with depsTail := some nd }), none)) ∧
    (∀ fuel st dep sub nd, (getNode st sub).depsTail = none →
       (getNode st sub).deps = some nd → (getLink st nd).dep = dep →
       linkF fuel st dep sub =
         some (updNode st sub (fun n => { n with depsTail := some nd }), none)) ∧
    (∀ fuel st dep sub cd nd dl, (getNode st sub).depsTail = some cd →
       (getLink st cd).dep ≠ dep → (getLink st cd).nextDep = some nd →
       (getLink st nd).dep ≠ dep → (getNode st dep).subsTail = some dl →
       (getLink st dl).sub = sub → isValidLink fuel st dl sub = some true →
       linkF fuel st dep sub = some (st, none)) ∧
    (∀ fuel st dep sub cd dl, (getNode st sub).depsTail = some cd →
       (getLink st cd).dep ≠ dep → (getLink st cd).nextDep = none →
       (getNode st dep).subsTail = some dl → (getLink st dl).sub = sub →
       isValidLink fuel st dl sub = some true →
       linkF fuel st dep sub = some (st, none)) := by
  refine ⟨?_, ?_, ?_, ?_, ?_⟩
  · intro fuel st dep sub cd h1 h2
    simp [linkF, h1, h2]
  · intro fuel st dep sub cd nd h1 h2 h3 h4
    simp [linkF, h1, h2, h3, h4]
  · intro fuel st dep sub nd h1 h2 h3
    simp [linkF, h1, h2, h3]
  · intro fuel st dep sub cd nd dl h1 h2 h3 h4 h5 h6 h7
    simp [linkF, h1, h2, h3, h4, h5, h6, h7]
  · intro fuel st dep sub cd dl h1 h2 h3 h4 h5 h6
    simp [linkF, h1, h2, h3, h4, h5, h6]

/-- Witness for the amended C1: one concrete state per fast path — cursor
hit (`c1W`), cursor-successor hit with and without a set cursor (`c1W2`,
`c1W3`), and last-subscriber-edge hit with and without a cursor successor
(`c1W4`, `c1W5`). -/
theorem C1_link_idempotent_fastpaths_witness :
    linkF 5 c1W 0 1 = some (c1W, none) ∧
    linkF 5 c1W2 1 2 =
      some (updNode c1W2 2 (fun n => { n with depsTail := some 1 }), none) ∧
    linkF 5 c1W3 0 1 =
      some (updNode c1W3 1 (fun n => { n with depsTail := some 0 }), none) ∧
    linkF 9 c1W4 0 3 = some (c1W4, none) ∧
    linkF 9 c1W5 0 2 = some (c1W5, none) :=
  ⟨C1_link_idempotent_fastpaths.1 5 c1W 0 1 0 (by decide) (by decide),
   C1_link_idempotent_fastpaths.2.1 5 c1W2 1 2 0 1 (by decide) (by decide) (by decide)
     (by decide),
   C1_link_idempotent_fastpaths.2.2.1 5 c1W3 0 1 0 (by decide) (by decide) (by decide),
   C1_link_idempotent_fastpaths.2.2.2.1 9 c1W4 0 3 1 2 0 (by decide) (by decide) (by decide)
     (by decide) (by decide) (by decide) (by decide),
   C1_link_idempotent_fastpaths.2.2.2.2 9 c1W5 0 2 1 0 (by decide) (by decide) (by decide)
     (by decide) (by decide) (by decide)⟩

/-- C1, as stated, is violated by the code: in `c1Pre` link 1 is a live
edge between dependency 0 and subscriber 2, present in dependency 0's
subscriber list (head link 1, then link 2) and in subscriber 2's
dependency list (link 0, then link 1) — but it is not the cursor, the
cursor successor, or dependency 0's most recent subscriber edge, so
`link(0, 2)` misses all three fast paths and allocates a second link
(id 3) between the same pair: two (0, 2) edges now coexist. -/
theorem C1_link_duplicate_counterexample :
    (c1Pre.map fun st =>
      ((getLink st 1).dep, (getLink st 1).sub, (getNode st 0).subs, (getLink st 1).nextSub,
       (getNode st 2).deps, (getLink st 0).nextDep, st.nextLinkId)) =
      some (0, 2, some 1, some 2, some 0, some 1, 3) ∧
    (c1Post.map fun p =>
      (p.2, p.1.nextLinkId, (getLink p.1 3).dep, (getLink p.1 3).sub)) =
      some (some 3, 4, 0, 2) :=
  ⟨by decide, by decide⟩

/-- C7 (amended): a paused region clears the active subscriber, so signal
reads while paused create no link and change nothing, and computed reads
while paused create no link provided no effect scope is active either (a
clean computed read then returns the cached value on an unchanged state).
A computed read while paused inside an active effect scope is still
linked to that scope — see the counterexample. -/
theorem C7_paused_read_not_attributed :
    (∀ st, (pauseTracking st).activeSub = none) ∧
    (∀ fuel st s, st.activeSub = none → sigRead fuel st s = some (st, (getNode st s).value)) ∧
    (∀ fuel st c, st.activeSub = none → st.activeScope = none →
      hasF (getNode st c).flags (fDirty ||| fPendingComputed) = false →
      computedGetter (fuel + 1) st c = some (st, some ((getNode st c).value))) := by
  refine ⟨fun st => rfl, fun fuel st s h => by simp [sigRead, h], fun fuel st c h1 h2 h3 => ?_⟩
  simp [computedGetter, h1, h2, h3]

/-- Witness for the amended C7: paused reads of a signal and of a clean
computed leave the state untouched. -/
theorem C7_paused_read_not_attributed_witness :
    sigRead 3 c7W 0 = some (c7W, 5) ∧ computedGetter (3 + 1) c7W 1 = some (c7W, some 9) :=
  ⟨C7_paused_read_not_attributed.2.1 3 c7W 0 (by decide),
   C7_paused_read_not_attributed.2.2 3 c7W 1 (by decide) (by decide) (by decide)⟩

/-- C7, as stated, is violated by the code: effect scope 1's body pauses
tracking, reads computed 0, and resumes — yet after the scope's run a
link (id 0) with dependency 0 and subscriber 1 exists: the paused
computed read was attributed to the enclosing active scope, because
`pauseTracking` clears only the active subscriber, not the active
scope. -/
theorem C7_paused_scope_link_counterexample :
    (c7Run.map fun st =>
      ((getNode st 1).deps, (getLink st 0).dep, (getLink st 0).sub, (getNode st 0).subs,
       st.pauseStack, st.activeSub)) =
      some (some 0, 0, 1, some 0, [], none) := by decide

/-! ### Log preservation through propagation (for C5) -/

theorem updNode_log (st : State) (i : NodeId) (f : Node → Node) :
    (updNode st i f).log = st.log := rfl

theorem updLink_log (st : State) (i : LinkId) (f : Link → Link) :
    (updLink st i f).log = st.log := rfl

theorem enqueueEffect_log (st : State) (s : NodeId) :
    (enqueueEffect st s).log = st.log := by
  unfold enqueueEffect
  split
  · dsimp only
    split <;> rfl
  · rfl

theorem ite_enqueue_log (c : Prop) [Decidable c] (st : State) (s : NodeId) :
    (if c then enqueueEffect st s else st).log = st.log := by
  split <;> simp [enqueueEffect_log]

/-- Every function of the `propagate` family preserves the event log:
propagation marks flags and appends effects to the queue but never
invokes a policy callback or an effect body. -/
theorem prop_family_log : ∀ fuel : Nat,
    (∀ st l s tf k st', propTop fuel st l s tf k = some st' → st'.log = st.log) ∧
    (∀ st s tf k sub sf st', propDescend fuel st s tf k sub sf = some st' → st'.log = st.log) ∧
    (∀ st l s tf k sub sf st', propElse fuel st l s tf k sub sf = some st' → st'.log = st.log) ∧
    (∀ st s tf k st', propAdvance fuel st s tf k = some st' → st'.log = st.log) ∧
    (∀ st s k st', propUnwind fuel st s k = some st' → st'.log = st.log) := by
  intro fuel
  induction fuel with
  | zero =>
      refine ⟨fun st l s tf k st' h => ?_, fun st s tf k sub sf st' h => ?_,
              fun st l s tf k sub sf st' h => ?_, fun st s tf k st' h => ?_,
              fun st s k st' h => ?_⟩ <;>
        simp [propTop, propDescend, propElse, propAdvance, propUnwind] at h
  | succ n ih =>
      obtain ⟨ihTop, ihDesc, ihElse, ihAdv, ihUnw⟩ := ih
      refine ⟨?_, ?_, ?_, ?_, ?_⟩
      · intro st l s tf k st' h
        unfold propTop at h
        try simp only [] at h
        repeat' split at h
        all_goals
          first
          | exact Option.noConfusion h
          | (injection h with he; rw [← he]; try rfl)
          | (rw [ihTop _ _ _ _ _ _ h];
             try simp [updNode_log, updLink_log, enqueueEffect_log, ite_enqueue_log])
          | (rw [ihDesc _ _ _ _ _ _ _ h];
             try simp [updNode_log, updLink_log, enqueueEffect_log, ite_enqueue_log])
          | (rw [ihElse _ _ _ _ _ _ _ _ h];
             try simp [updNode_log, updLink_log, enqueueEffect_log, ite_enqueue_log])
          | (rw [ihAdv _ _ _ _ _ h];
             try simp [updNode_log, updLink_log, enqueueEffect_log, ite_enqueue_log])
          | (rw [ihUnw _ _ _ _ h];
             try simp [updNode_log, updLink_log, enqueueEffect_log, ite_enqueue_log])
      · intro st s tf k sub sf st' h
        unfold propDescend at h
        try simp only [] at h
        repeat' split at h
        all_goals
          first
          | exact Option.noConfusion h
          | (injection h with he; rw [← he]; try rfl)
          | (rw [ihTop _ _ _ _ _ _ h];
             try simp [updNode_log, updLink_log, enqueueEffect_log, ite_enqueue_log])
          | (rw [ihAdv _ _ _ _ _ h];
             try simp [updNode_log, updLink_log, enqueueEffect_log, ite_enqueue_log])
      · intro st l s tf k sub sf st' h
        unfold propElse at h
        try simp only [] at h
        repeat' split at h
        all_goals
          first
          | exact Option.noConfusion h
          | (injection h with he; rw [← he]; try rfl)
          | (rw [ihAdv _ _ _ _ _ h];
             try simp [updNode_log, updLink_log, enqueueEffect_log, ite_enqueue_log])
      · intro st s tf k st' h
        unfold propAdvance at h
        try simp only [] at h
        repeat' split at h
        all_goals
          first
          | exact Option.noConfusion h
          | (injection h with he; rw [← he]; try rfl)
          | (rw [ihTop _ _ _ _ _ _ h]; try simp)
          | (rw [ihUnw _ _ _ _ h]; try simp)
      · intro st s k st' h
        unfold propUnwind at h
        try simp only [] at h
        repeat' split at h
        all_goals
          first
          | exact Option.noConfusion h
          | (injection h with he; rw [← he]; try rfl)
          | (rw [ihTop _ _ _ _ _ _ h];
             try simp [updNode_log, updLink_log, enqueueEffect_log, ite_enqueue_log])
          | (rw [ihUnw _ _ _ _ h];
             try simp [updNode_log, updLink_log, enqueueEffect_log, ite_enqueue_log])

/-- C5: during any single call to `propagate`, no user-supplied code
runs: the event log — which records every `updateComputed` and
`notifyEffect` policy invocation and every effect-body run — is exactly
preserved.  Effects are only appended to the pending queue, never
invoked inline. -/
theorem C5_propagate_no_user_code (fuel : Nat) (st : State) (l : LinkId) (st' : State)
    (h : propagate fuel st l = some st') : st'.log = st.log :=
  (prop_family_log fuel).1 st l l fDirty 0 st' h

/-- Witness for C5: a concrete propagation over a signal with one
subscribed effect terminates and leaves the log unchanged. -/
theorem C5_propagate_no_user_code_witness : c5WPost.log = c5WPre.log :=
  C5_propagate_no_user_code 20 c5WPre 0 c5WPost (by decide)

/-! ### Further arena lemmas (for C4) -/

theorem list_getD_ge {α : Type} (l : List α) (i : Nat) (d : α) (h : l.length ≤ i) :
    l.getD i d = d := by
  induction l generalizing i with
  | nil => rfl
  | cons a t ih =>
      cases i with
      | zero => simp at h
      | succ j => simpa using ih j (by simpa using h)

theorem getNode_updNode_value (st : State) (i : NodeId) (x : Nat) :
    (getNode (updNode st i (fun n => { n with flags := x })) i).value
      = (getNode st i).value := by
  show ((st.nodes.set i ((fun n => { n with flags := x }) (getNode st i))).getD i
        nodeDefault).value = (getNode st i).value
  rw [list_getD_set_self]
  rcases Nat.lt_or_ge i st.nodes.length with h | h
  · rw [if_pos h]
  · rw [if_neg (Nat.not_lt.mpr h)]
    unfold getNode
    rw [list_getD_ge _ _ _ h]

/-- C4: reading a computed that is `PendingComputed` but not `Dirty`,
when the dirty check over its dependency list reports clean (no
transitive dependency actually changed value), clears `PendingComputed`,
returns the computed's cached value, and never invokes the computed's
own derivation: the whole read produces exactly the dirty-check state
with the one flag cleared, its log untouched beyond the check itself. -/
theorem C4_pending_clean_read (fuel : Nat) (st st1 : State) (c : NodeId) (d : LinkId)
    (hdp : hasF (getNode st c).flags (fDirty ||| fPendingComputed) = true)
    (hnd : hasF (getNode st c).flags fDirty = false)
    (hdeps : (getNode st c).deps = some d)
    (hcd : cdTop fuel st d 0 = some (st1, some false))
    (hsub : st1.activeSub = none)
    (hscope : st1.activeScope = none) :
    computedGetter (fuel + 2) st c =
      some (updNode st1 c
              (fun n => { n with flags := clrF (getNode st c).flags fPendingComputed }),
            some ((getNode st1 c).value)) ∧
    (updNode st1 c
      (fun n => { n with flags := clrF (getNode st c).flags fPendingComputed })).log
      = st1.log := by
  have hpcu : processComputedUpdate (fuel + 1) st c ((getNode st c).flags) =
      some (updNode st1 c
              (fun n => { n with flags := clrF (getNode st c).flags fPendingComputed }),
            false) := by
    simp only [processComputedUpdate, hnd, hdeps, hcd]
    simp
  refine ⟨?_, rfl⟩
  simp only [computedGetter, hdp, hpcu, if_true]
  have hsub2 : (updNode st1 c
      (fun n => { n with flags := clrF (getNode st c).flags fPendingComputed })).activeSub
      = none := hsub
  have hscope2 : (updNode st1 c
      (fun n => { n with flags := clrF (getNode st c).flags fPendingComputed })).activeScope
      = none := hscope
  simp only [hsub2, hscope2, getNode_updNode_value]

/-- Witness for C4: signal 0 was written from 2 to 3, dirtying computed 1
(= `sig0 / 2`, which rederives to the unchanged value 1) and leaving
computed 2 (= `comp1 + 1`) `PendingComputed`; the subsequent read of
computed 2 clears the flag and serves the cached 2 without rederiving. -/
theorem C4_pending_clean_read_witness :
    computedGetter (38 + 2) c4W 2 =
      some (updNode c4W1 2
              (fun n => { n with flags := clrF (getNode c4W 2).flags fPendingComputed }),
            some ((getNode c4W1 2).value)) ∧
    (updNode c4W1 2
      (fun n => { n with flags := clrF (getNode c4W 2).flags fPendingComputed })).log
      = c4W1.log :=
  C4_pending_clean_read 38 c4W c4W1 2 1 (by decide) (by decide) (by decide) (by decide)
    (by decide) (by decide)

/-! ### Generic engine lemmas (for C1, C3, C6, C8): bit-level facts,
batch-counter preservation through propagation, tracking-session closure -/

/-- The handful of concrete 8-bit flag-word computations the symbolic
executions of the scenario proofs run into, checked by evaluation. -/
theorem natBitFacts :
    (255 ^^^ 248 : Nat) = 7 ∧ (255 ^^^ 4 : Nat) = 251 ∧
    (2 &&& 7 : Nat) = 2 ∧ (42 &&& 7 : Nat) = 2 ∧ (2 ||| 4 : Nat) = 6 ∧
    (6 &&& 251 : Nat) = 2 ∧ (2 &&& 244 : Nat) = 0 ∧ (42 &&& 244 : Nat) = 32 ∧
    (42 &&& 16 : Nat) = 0 ∧ (42 &&& 224 : Nat) = 32 ∧ (42 &&& 36 : Nat) = 32 ∧
    (42 &&& 32 : Nat) = 32 ∧ (2 &&& 2 : Nat) = 2 ∧ (2 ||| 32 : Nat) = 34 ∧
    (34 ||| 8 : Nat) = 42 ∧ ((32 : Nat) != 0) = true ∧ ((0 : Nat) != 0) = false ∧
    ((2 : Nat) != 0) = true ∧ ((1 : Int) = 0) = False ∧ ((1 : Int) - 1) = 0 := by
  refine ⟨?_, ?_, ?_, ?_, ?_, ?_, ?_, ?_, ?_, ?_, ?_, ?_, ?_, ?_, ?_, ?_, ?_, ?_, ?_, ?_⟩
    <;> decide

theorem updNode_batch (st : State) (i : NodeId) (f : Node → Node) :
    (updNode st i f).batchDepth = st.batchDepth := rfl

theorem updLink_batch (st : State) (i : LinkId) (f : Link → Link) :
    (updLink st i f).batchDepth = st.batchDepth := rfl

theorem enqueueEffect_batch (st : State) (s : NodeId) :
    (enqueueEffect st s).batchDepth = st.batchDepth := by
  unfold enqueueEffect
  split
  · dsimp only
    split <;> rfl
  · rfl

theorem ite_enqueue_batch (c : Prop) [Decidable c] (st : State) (s : NodeId) :
    (if c then enqueueEffect st s else st).batchDepth = st.batchDepth := by
  split <;> simp [enqueueEffect_batch]

/-- Every function of the `propagate` family preserves the batch counter:
propagation never enters or leaves a batch. -/
theorem prop_family_batch : ∀ fuel : Nat,
    (∀ st l s tf k st', propTop fuel st l s tf k = some st' →
       st'.batchDepth = st.batchDepth) ∧
    (∀ st s tf k sub sf st', propDescend fuel st s tf k sub sf = some st' →
       st'.batchDepth = st.batchDepth) ∧
    (∀ st l s tf k sub sf st', propElse fuel st l s tf k sub sf = some st' →
       st'.batchDepth = st.batchDepth) ∧
    (∀ st s tf k st', propAdvance fuel st s tf k = some st' →
       st'.batchDepth = st.batchDepth) ∧
    (∀ st s k st', propUnwind fuel st s k = some st' → st'.batchDepth = st.batchDepth) := by
  intro fuel
  induction fuel with
  | zero =>
      refine ⟨fun st l s tf k st' h => ?_, fun st s tf k sub sf st' h => ?_,
              fun st l s tf k sub sf st' h => ?_, fun st s tf k st' h => ?_,
              fun st s k st' h => ?_⟩ <;>
        simp [propTop, propDescend, propElse, propAdvance, propUnwind] at h
  | succ n ih =>
      obtain ⟨ihTop, ihDesc, ihElse, ihAdv, ihUnw⟩ := ih
      refine ⟨?_, ?_, ?_, ?_, ?_⟩
      · intro st l s tf k st' h
        unfold propTop at h
        try simp only [] at h
        repeat' split at h
        all_goals
          first
          | exact Option.noConfusion h
          | (injection h with he; rw [← he]; try rfl)
          | (rw [ihTop _ _ _ _ _ _ h];
             try simp [updNode_batch, updLink_batch, enqueueEffect_batch, ite_enqueue_batch])
          | (rw [ihDesc _ _ _ _ _ _ _ h];
             try simp [updNode_batch, updLink_batch, enqueueEffect_batch, ite_enqueue_batch])
          | (rw [ihElse _ _ _ _ _ _ _ _ h];
             try simp [updNode_batch, updLink_batch, enqueueEffect_batch, ite_enqueue_batch])
          | (rw [ihAdv _ _ _ _ _ h];
             try simp [updNode_batch, updLink_batch, enqueueEffect_batch, ite_enqueue_batch])
          | (rw [ihUnw _ _ _ _ h];
             try simp [updNode_batch, updLink_batch, enqueueEffect_batch, ite_enqueue_batch])
      · intro st s tf k sub sf st' h
        unfold propDescend at h
        try simp only [] at h
        repeat' split at h
        all_goals
          first
          | exact Option.noConfusion h
          | (injection h with he; rw [← he]; try rfl)
          | (rw [ihTop _ _ _ _ _ _ h];
             try simp [updNode_batch, updLink_batch, enqueueEffect_batch, ite_enqueue_batch])
          | (rw [ihAdv _ _ _ _ _ h];
             try simp [updNode_batch, updLink_batch, enqueueEffect_batch, ite_enqueue_batch])
      · intro st l s tf k sub sf st' h
        unfold propElse at h
        try simp only [] at h
        repeat' split at h
        all_goals
          first
          | exact Option.noConfusion h
          | (injection h with he; rw [← he]; try rfl)
          | (rw [ihAdv _ _ _ _ _ h];
             try simp [updNode_batch, updLink_batch, enqueueEffect_batch, ite_enqueue_batch])
      · intro st s tf k st' h
        unfold propAdvance at h
        try simp only [] at h
        repeat' split at h
        all_goals
          first
          | exact Option.noConfusion h
          | (injection h with he; rw [← he]; try rfl)
          | (rw [ihTop _ _ _ _ _ _ h]; try simp)
          | (rw [ihUnw _ _ _ _ h]; try simp)
      · intro st s k st' h
        unfold propUnwind at h
        try simp only [] at h
        repeat' split at h
        all_goals
          first
          | exact Option.noConfusion h
          | (injection h with he; rw [← he]; try rfl)
          | (rw [ihTop _ _ _ _ _ _ h];
             try simp [updNode_batch, updLink_batch, enqueueEffect_batch, ite_enqueue_batch])
          | (rw [ihUnw _ _ _ _ h];
             try simp [updNode_batch, updLink_batch, enqueueEffect_batch, ite_enqueue_batch])

/-- A value-changing write performed while the batch counter is nonzero
never drains the effect queue: the event log is exactly preserved, so no
notification fires and no body runs. -/
theorem sigWrite_in_batch (fuel : Nat) (st : State) (s : NodeId) (v : Nat) (st' : State)
    (b : Bool) (hbd : st.batchDepth ≠ 0) (h : sigWrite fuel st s v = some (st', b)) :
    st'.log = st.log := by
  cases fuel with
  | zero => simp [sigWrite] at h
  | succ n =>
      unfold sigWrite at h
      try simp only [] at h
      repeat' split at h
      all_goals
        first
        | exact Option.noConfusion h
        | (injection h with h2; injection h2 with h3 h4; rw [← h3]; rfl)
        | (rename_i st2 hp hbz
           injection h with h2
           injection h2 with h3 h4
           rw [← h3, (prop_family_log n).1 _ _ _ _ _ _ hp]
           rfl)
        | (rename_i hbz
           exfalso
           apply hbd
           rename_i st2 hp
           rw [(prop_family_batch n).1 _ _ _ _ _ _ hp] at hbz
           exact hbz)

/-- Writing a signal that has no subscribers just stores the value: no
propagation, no queueing, no drain, whatever the batch depth. -/
theorem sigWrite_no_subs (fuel : Nat) (st : State) (s : NodeId) (v : Nat)
    (h : (getNode st s).subs = none) :
    sigWrite (fuel + 1) st s v =
      some (updNode st s (fun n => { n with value := v }), false) := by
  have h2 : (getNode (updNode st s fun n => { n with value := v }) s).subs = none := by
    show ((st.nodes.set s _).getD s nodeDefault).subs = none
    rw [list_getD_set_self]
    split
    · exact h
    · rfl
  simp only [sigWrite]
  split
  · rfl
  · rw [h2]

theorem list_getD_set_ne {α : Type} (l : List α) (i j : Nat) (a d : α) (hij : i ≠ j) :
    (l.set i a).getD j d = l.getD j d := by
  induction l generalizing i j with
  | nil => rfl
  | cons b t ih =>
      cases i with
      | zero => cases j with
          | zero => exact absurd rfl hij
          | succ k => simp
      | succ i2 => cases j with
          | zero => simp
          | succ k => simpa using ih i2 k (fun hc => hij (by rw [hc]))

/-- `clearTracking` never touches the active subscriber. -/
theorem clearTracking_activeSub : ∀ fuel st l st2,
    clearTracking fuel st l = some st2 → st2.activeSub = st.activeSub := by
  intro fuel
  induction fuel with
  | zero => intro st l st2 h; simp [clearTracking] at h
  | succ n ih =>
      intro st l st2 h
      unfold clearTracking at h
      try simp only [] at h
      repeat' split at h
      all_goals
        first
        | exact Option.noConfusion h
        | (injection h with he; rw [← he]; try rfl)
        | (rw [ih _ _ _ h]; rfl)

theorem dtn_updLink (st : State) (i : LinkId) (f : Link → Link) (e : NodeId)
    (h : (getNode st e).depsTail = none) :
    (getNode (updLink st i f) e).depsTail = none := h

theorem dtn_upd (st : State) (i : NodeId) (f : Node → Node)
    (hf : ∀ n, (f n).depsTail = n.depsTail ∨ (f n).depsTail = none) (e : NodeId)
    (h : (getNode st e).depsTail = none) :
    (getNode (updNode st i f) e).depsTail = none := by
  by_cases hie : i = e
  · subst hie
    show ((st.nodes.set i _).getD i nodeDefault).depsTail = none
    rw [list_getD_set_self]
    split
    · rcases hf (getNode st i) with h1 | h1
      · rw [h1]; exact h
      · exact h1
    · rfl
  · show ((st.nodes.set i _).getD e nodeDefault).depsTail = none
    rw [list_getD_set_ne _ _ _ _ _ hie]
    exact h

theorem dtn_upd_subs (st : State) (i : NodeId) (v : Option LinkId) (e : NodeId)
    (h : (getNode st e).depsTail = none) :
    (getNode (updNode st i (fun n => { n with subs := v })) e).depsTail = none :=
  dtn_upd st i (fun n => { n with subs := v }) (fun n => Or.inl rfl) e h

theorem dtn_upd_subsTail (st : State) (i : NodeId) (v : Option LinkId) (e : NodeId)
    (h : (getNode st e).depsTail = none) :
    (getNode (updNode st i (fun n => { n with subsTail := v })) e).depsTail = none :=
  dtn_upd st i (fun n => { n with subsTail := v }) (fun n => Or.inl rfl) e h

theorem dtn_upd_flagsDirty (st : State) (i : NodeId) (e : NodeId)
    (h : (getNode st e).depsTail = none) :
    (getNode (updNode st i (fun n => { n with flags := n.flags ||| fDirty })) e).depsTail
      = none :=
  dtn_upd st i (fun n => { n with flags := n.flags ||| fDirty }) (fun n => Or.inl rfl) e h

theorem dtn_upd_depsClear (st : State) (i : NodeId) (e : NodeId)
    (h : (getNode st e).depsTail = none) :
    (getNode (updNode st i (fun n => { n with deps := none, depsTail := none })) e).depsTail
      = none :=
  dtn_upd st i (fun n => { n with deps := none, depsTail := none })
    (fun n => Or.inr rfl) e h

/-- `clearTracking` only ever writes `none` into a `depsTail` field, so a
node whose cursor is already reset keeps it reset. -/
theorem clearTracking_depsTail_none : ∀ fuel st l st2,
    clearTracking fuel st l = some st2 → ∀ e, (getNode st e).depsTail = none →
    (getNode st2 e).depsTail = none := by
  intro fuel
  induction fuel with
  | zero => intro st l st2 h; simp [clearTracking] at h
  | succ n ih =>
      intro st l st2 h e he
      unfold clearTracking at h
      try simp only [] at h
      repeat' split at h
      all_goals
        first
        | exact Option.noConfusion h
        | (injection h with h2; rw [← h2];
           repeat
             first
             | exact he
             | (apply dtn_updLink)
             | (apply dtn_upd_subs)
             | (apply dtn_upd_subsTail)
             | (apply dtn_upd_flagsDirty)
             | (apply dtn_upd_depsClear))
        | (refine ih _ _ _ h e ?_;
           repeat
             first
             | exact he
             | (apply dtn_updLink)
             | (apply dtn_upd_subs)
             | (apply dtn_upd_subsTail)
             | (apply dtn_upd_flagsDirty)
             | (apply dtn_upd_depsClear))

theorem startTracking_depsTail (st : State) (e : NodeId) :
    (getNode (startTracking st e) e).depsTail = none := by
  show ((st.nodes.set e _).getD e nodeDefault).depsTail = none
  rw [list_getD_set_self]
  split <;> rfl

/-- Clearing the `Tracking` bit clears it, for every flag word. -/
theorem hasF_clrF_tracking (f : Nat) : hasF (clrF f fTracking) fTracking = false := by
  have h1 : (255 ^^^ 4 : Nat) = 251 := by decide
  have h2 : (251 &&& 4 : Nat) = 0 := by decide
  show (f &&& (255 ^^^ 4) &&& 4 != 0) = false
  rw [h1, Nat.and_assoc, h2]
  simp

theorem tracking_cleared_updNode (st : State) (e : NodeId) :
    hasF (getNode (updNode st e (fun n => { n with flags := clrF n.flags fTracking })) e).flags
      fTracking = false := by
  show hasF (((st.nodes.set e _).getD e nodeDefault).flags) fTracking = false
  rw [list_getD_set_self]
  split
  · exact hasF_clrF_tracking _
  · decide

theorem deps_cleared_updNode (st : State) (e : NodeId) :
    (getNode (updNode st e (fun n => { n with deps := none })) e).deps = none := by
  show ((st.nodes.set e _).getD e nodeDefault).deps = none
  rw [list_getD_set_self]
  split <;> rfl

theorem dtn_upd_depsNone (st : State) (i : NodeId) (e : NodeId)
    (h : (getNode st e).depsTail = none) :
    (getNode (updNode st i (fun n => { n with deps := none })) e).depsTail = none :=
  dtn_upd st i (fun n => { n with deps := none }) (fun n => Or.inl rfl) e h

theorem dtn_upd_flagsTracking (st : State) (i e : NodeId)
    (h : (getNode st e).depsTail = none) :
    (getNode (updNode st i (fun n => { n with flags := clrF n.flags fTracking })) e).depsTail
      = none :=
  dtn_upd st i (fun n => { n with flags := clrF n.flags fTracking })
    (fun n => Or.inl rfl) e h

theorem dn_upd (st : State) (i : NodeId) (f : Node → Node)
    (hf : ∀ n, (f n).deps = n.deps) (e : NodeId)
    (h : (getNode st e).deps = none) :
    (getNode (updNode st i f) e).deps = none := by
  by_cases hie : i = e
  · subst hie
    show ((st.nodes.set i _).getD i nodeDefault).deps = none
    rw [list_getD_set_self]
    split
    · rw [hf (getNode st i)]; exact h
    · rfl
  · show ((st.nodes.set i _).getD e nodeDefault).deps = none
    rw [list_getD_set_ne _ _ _ _ _ hie]
    exact h

theorem dn_upd_flagsTracking (st : State) (i e : NodeId)
    (h : (getNode st e).deps = none) :
    (getNode (updNode st i (fun n => { n with flags := clrF n.flags fTracking })) e).deps
      = none :=
  dn_upd st i (fun n => { n with flags := clrF n.flags fTracking }) (fun n => rfl) e h

/-- `effectStop` always leaves the stopped node with an empty dependency
list and a reset cursor, for every state. -/
theorem effectStop_detach (fuel : Nat) (st : State) (e : NodeId) (st' : State)
    (h : effectStop fuel st e = some st') :
    (getNode st' e).deps = none ∧ (getNode st' e).depsTail = none := by
  have hdt : (getNode (startTracking st e) e).depsTail = none := startTracking_depsTail st e
  unfold effectStop endTracking at h
  simp only [hdt] at h
  cases hdp : (getNode (startTracking st e) e).deps with
  | none =>
      simp only [hdp] at h
      injection h with h2
      rw [← h2]
      exact ⟨dn_upd_flagsTracking _ _ _ hdp, dtn_upd_flagsTracking _ _ _ hdt⟩
  | some d =>
      simp only [hdp] at h
      cases hct : clearTracking fuel (startTracking st e) d with
      | none =>
          simp only [hct] at h
          exact Option.noConfusion h
      | some st2 =>
          simp only [hct] at h
          injection h with h2
          rw [← h2]
          have hdt2 : (getNode st2 e).depsTail = none :=
            clearTracking_depsTail_none fuel _ d st2 hct e hdt
          exact ⟨dn_upd_flagsTracking _ _ _ (deps_cleared_updNode st2 e),
                 dtn_upd_flagsTracking _ _ _ (dtn_upd_depsNone st2 e e hdt2)⟩

/-- `endTracking` always restores the active subscriber it was given and
returns the subscriber with `Tracking` cleared, in all four of its
branches. -/
theorem endTracking_closes (fuel : Nat) (st : State) (e : NodeId) (st2 : State)
    (h : endTracking fuel st e = some st2) :
    st2.activeSub = st.activeSub ∧
    hasF (getNode st2 e).flags fTracking = false := by
  unfold endTracking at h
  cases hdt : (getNode st e).depsTail with
  | some dt =>
      simp only [hdt] at h
      cases hnd : (getLink st dt).nextDep with
      | some nd =>
          simp only [hnd] at h
          cases hct : clearTracking fuel st nd with
          | none => simp only [hct] at h; exact Option.noConfusion h
          | some stc =>
              simp only [hct] at h
              injection h with h2
              rw [← h2]
              exact ⟨clearTracking_activeSub fuel st nd stc hct,
                     tracking_cleared_updNode _ _⟩
      | none =>
          simp only [hnd] at h
          injection h with h2
          rw [← h2]
          exact ⟨rfl, tracking_cleared_updNode _ _⟩
  | none =>
      simp only [hdt] at h
      cases hdp : (getNode st e).deps with
      | some d =>
          simp only [hdp] at h
          cases hct : clearTracking fuel st d with
          | none => simp only [hct] at h; exact Option.noConfusion h
          | some stc =>
              simp only [hct] at h
              injection h with h2
              rw [← h2]
              exact ⟨clearTracking_activeSub fuel st d stc hct,
                     tracking_cleared_updNode _ _⟩
      | none =>
          simp only [hdp] at h
          injection h with h2
          rw [← h2]
          exact ⟨rfl, tracking_cleared_updNode _ _⟩

/-- The `finally` of `runEffect`: every completed call — whether or not
the body threw — restores the previously active subscriber and returns
the effect with `Tracking` cleared. -/
theorem runEffect_closes : ∀ fuel st e st' threw,
    runEffect fuel st e = some (st', threw) →
    st'.activeSub = st.activeSub ∧ hasF (getNode st' e).flags fTracking = false := by
  intro fuel st e st' threw h
  cases fuel with
  | zero => simp [runEffect] at h
  | succ n =>
      unfold runEffect at h
      try simp only [] at h
      repeat' split at h
      all_goals
        first
        | exact Option.noConfusion h
        | (rename_i st6 het
           injection h with h2
           injection h2 with h3 h4
           subst h3
           exact ⟨(endTracking_closes _ _ _ _ het).1, (endTracking_closes _ _ _ _ het).2⟩)

/-- The `finally` of `updateComputed`: every completed call — whether the
derivation returned or threw — restores the previously active subscriber
and returns the computed with `Tracking` cleared. -/
theorem updComputed_closes : ∀ fuel st c st' r,
    updComputed fuel st c = some (st', r) →
    st'.activeSub = st.activeSub ∧ hasF (getNode st' c).flags fTracking = false := by
  intro fuel st c st' r h
  cases fuel with
  | zero => simp [updComputed] at h
  | succ n =>
      unfold updComputed at h
      try simp only [] at h
      repeat' split at h
      all_goals
        first
        | exact Option.noConfusion h
        | (rename_i st6 het
           injection h with h2
           injection h2 with h3 h4
           subst h3
           exact ⟨(endTracking_closes _ _ _ _ het).1, (endTracking_closes _ _ _ _ het).2⟩)

/-- C3: batch coalescing, for every pair of initial values `(v1, v2)` and
every pair of written values `(w1, w2)` that actually change the signals.
After `effect` creation the body has run once observing `(v1, v2)`; both
in-batch writes store the new values and enqueue the effect but do not
run it (the state is exactly `c3StC`/`c3StD`: counter 1, effect queued,
run list unchanged); `endBatch` returns the counter to 0, empties the
queue, and runs the body exactly once more, observing both new values.
The last conjunct is fully generic: any write made while the batch
counter of any state is nonzero preserves the event log exactly — no
notification fires and no body runs before the closing `endBatch`. -/
theorem C3_batch_coalescing :
    (∀ v1 v2 w1 w2 : Nat, w1 ≠ v1 → w2 ≠ v2 →
       effectCreate 40 (c3Start v1 v2) 2 = some (c3StA v1 v2, false) ∧
       runsOf (c3StA v1 v2).log 2 = [[v1, v2]] ∧
       sigWrite 40 (startBatchF (c3StA v1 v2)) 0 w1 = some (c3StC v1 v2 w1, false) ∧
       sigWrite 40 (c3StC v1 v2 w1) 1 w2 = some (c3StD v1 v2 w1 w2, false) ∧
       runsOf (c3StD v1 v2 w1 w2).log 2 = [[v1, v2]] ∧
       (c3StD v1 v2 w1 w2).batchDepth = 1 ∧
       (c3StD v1 v2 w1 w2).queuedEffects = some 2 ∧
       endBatchF 40 (c3StD v1 v2 w1 w2) = some (c3StE v1 v2 w1 w2, false) ∧
       runsOf (c3StE v1 v2 w1 w2).log 2 = [[v1, v2], [w1, w2]] ∧
       (c3StE v1 v2 w1 w2).batchDepth = 0 ∧
       (c3StE v1 v2 w1 w2).queuedEffects = none) ∧
    (∀ fuel st s v st' b, st.batchDepth ≠ 0 → sigWrite fuel st s v = some (st', b) →
       st'.log = st.log) := by
  refine ⟨fun v1 v2 w1 w2 h1 h2 => ⟨?_, ?_, ?_, ?_, ?_, ?_, ?_, ?_, ?_, ?_, ?_⟩,
          fun fuel st s v st' b hbd h => sigWrite_in_batch fuel st s v st' b hbd h⟩
  · simp [effectCreate, runEffect, runBody, sigRead, linkF, isValidLink, ivlGo, linkNewDep,
          startTracking, endTracking, clearTracking, getNode, getLink, updNode, updLink,
          initState, mkSignal, mkEffect, nodeDefault, linkDefault, c3Start, c3StA,
          fComputed, fEffect, fTracking, fNotified, fRecursed, fDirty, fPendingComputed,
          fPendingEffect, fPropagated, hasF, clrF, natBitFacts]
  · rfl
  · simp [sigWrite, startBatchF, propagate, propTop, propDescend, propElse, propAdvance,
          propUnwind, enqueueEffect, getNode, getLink, updNode, updLink, isValidLink, ivlGo,
          c3StA, c3StC, nodeDefault, linkDefault,
          fComputed, fEffect, fTracking, fNotified, fRecursed, fDirty, fPendingComputed,
          fPendingEffect, fPropagated, hasF, clrF, natBitFacts, Ne.symm h1]
  · simp [sigWrite, propagate, propTop, propDescend, propElse, propAdvance,
          propUnwind, enqueueEffect, getNode, getLink, updNode, updLink, isValidLink, ivlGo,
          c3StC, c3StD, nodeDefault, linkDefault,
          fComputed, fEffect, fTracking, fNotified, fRecursed, fDirty, fPendingComputed,
          fPendingEffect, fPropagated, hasF, clrF, natBitFacts, Ne.symm h2]
  · rfl
  · rfl
  · rfl
  · simp [endBatchF, processEffectNotifications, notifyEffectCb, notifyEffectFn,
          notifyEffectScopeFn, updateDirtyFlag, ppie, ppieGo, runEffect, runBody, sigRead,
          linkF, isValidLink, ivlGo, linkNewDep, startTracking, endTracking, clearTracking,
          getNode, getLink, updNode, updLink, c3StD, c3StE, nodeDefault, linkDefault,
          fComputed, fEffect, fTracking, fNotified, fRecursed, fDirty, fPendingComputed,
          fPendingEffect, fPropagated, hasF, clrF, natBitFacts]
  · rfl
  · rfl
  · rfl

/-- Witness for C3 at the spec's own values 10/20 written to 11/21: the
created state, the drained state, and the two runs observing (10, 20)
then (11, 21). -/
theorem C3_batch_coalescing_witness :
    effectCreate 40 (c3Start 10 20) 2 = some (c3StA 10 20, false) ∧
    endBatchF 40 (c3StD 10 20 11 21) = some (c3StE 10 20 11 21, false) ∧
    runsOf (c3StE 10 20 11 21).log 2 = [[10, 20], [11, 21]] := by
  obtain ⟨h1, h2, h3, h4, h5, h6, h7, h8, h9, h10, h11⟩ :=
    C3_batch_coalescing.1 10 20 11 21 (by decide) (by decide)
  exact ⟨h1, h8, h9⟩

/-- C6: the stop handle detaches the effect.  Generic conjuncts: (1) for
every state, a successful `effectStop` leaves the stopped node with an
empty dependency list and a reset cursor; (2) for every state, writing a
signal with no subscribers only stores the value — no propagation, no
queueing, no body runs.  Scenario conjuncts, for every pair of initial
values: stopping effect 2 of the two-signal scenario produces exactly
`c6StB`, in which the effect's dependency list and both signals'
subscriber lists are empty; every subsequent pair of writes to the two
previously tracked signals just stores the values, and the stopped
effect's run list still holds only the original run. -/
theorem C6_stop_detaches :
    (∀ fuel st e st', effectStop fuel st e = some st' →
       (getNode st' e).deps = none ∧ (getNode st' e).depsTail = none) ∧
    (∀ fuel st s v, (getNode st s).subs = none →
       sigWrite (fuel + 1) st s v =
         some (updNode st s (fun n => { n with value := v }), false)) ∧
    (∀ v1 v2 : Nat,
       effectCreate 40 (c3Start v1 v2) 2 = some (c3StA v1 v2, false) ∧
       effectStop 20 (c3StA v1 v2) 2 = some (c6StB v1 v2) ∧
       (getNode (c6StB v1 v2) 2).deps = none ∧
       (getNode (c6StB v1 v2) 0).subs = none ∧ (getNode (c6StB v1 v2) 0).subsTail = none ∧
       (getNode (c6StB v1 v2) 1).subs = none ∧ (getNode (c6StB v1 v2) 1).subsTail = none ∧
       ∀ u1 u2 : Nat,
         sigWrite 20 (c6StB v1 v2) 0 u1 =
           some (updNode (c6StB v1 v2) 0 (fun n => { n with value := u1 }), false) ∧
         sigWrite 20 (updNode (c6StB v1 v2) 0 (fun n => { n with value := u1 })) 1 u2 =
           some (updNode (updNode (c6StB v1 v2) 0 (fun n => { n with value := u1 })) 1
                   (fun n => { n with value := u2 }), false) ∧
         runsOf (updNode (updNode (c6StB v1 v2) 0 (fun n => { n with value := u1 })) 1
                   (fun n => { n with value := u2 })).log 2 = [[v1, v2]]) := by
  refine ⟨fun fuel st e st' h => effectStop_detach fuel st e st' h,
          fun fuel st s v h => sigWrite_no_subs fuel st s v h,
          fun v1 v2 => ⟨?_, ?_, rfl, rfl, rfl, rfl, rfl,
            fun u1 u2 => ⟨sigWrite_no_subs 19 _ 0 u1 rfl, sigWrite_no_subs 19 _ 1 u2 rfl,
                          rfl⟩⟩⟩
  · simp [effectCreate, runEffect, runBody, sigRead, linkF, isValidLink, ivlGo, linkNewDep,
          startTracking, endTracking, clearTracking, getNode, getLink, updNode, updLink,
          initState, mkSignal, mkEffect, nodeDefault, linkDefault, c3Start, c3StA,
          fComputed, fEffect, fTracking, fNotified, fRecursed, fDirty, fPendingComputed,
          fPendingEffect, fPropagated, hasF, clrF, natBitFacts]
  · simp [effectStop, startTracking, endTracking, clearTracking,
          getNode, getLink, updNode, updLink, c3StA, c6StB, nodeDefault, linkDefault,
          fComputed, fEffect, fTracking, fNotified, fRecursed, fDirty, fPendingComputed,
          fPendingEffect, fPropagated, hasF, clrF, natBitFacts]

/-- Witness for C6: the generic detach and no-subscriber-write conjuncts
applied to the concrete stopped state with values 1/2 and a write of 5. -/
theorem C6_stop_detaches_witness :
    ((getNode (c6StB 1 2) 2).deps = none ∧ (getNode (c6StB 1 2) 2).depsTail = none) ∧
    sigWrite 20 (c6StB 1 2) 0 5 =
      some (updNode (c6StB 1 2) 0 (fun n => { n with value := 5 }), false) :=
  ⟨C6_stop_detaches.1 20 (c3StA 1 2) 2 (c6StB 1 2) (by decide),
   C6_stop_detaches.2.1 19 (c6StB 1 2) 0 5 (by decide)⟩

/-- C8: a throwing body still closes its tracking session.  Generic
conjuncts (the try/finally of `runEffect` and `updateComputed`): every
completed call, throwing or not, restores the previously active
subscriber and clears the node's `Tracking` flag.  Concrete conjuncts:
effect 1's body reads signal 0 and throws — the exception surfaces to
the caller of `effect` (threw = true), `Tracking` is cleared, the
dependency linked before the throw remains (link 0 connects signal 0 to
effect 1), and the body is not logged as a completed run; likewise when
computed 1's derivation reads signal 0 and throws while effect 2 reads
it, the exception surfaces through the effect creation, both nodes'
`Tracking` flags are cleared, and the computed keeps the dependency
established before the throw. -/
theorem C8_throw_closes_session :
    (∀ fuel st e st' threw, runEffect fuel st e = some (st', threw) →
       st'.activeSub = st.activeSub ∧ hasF (getNode st' e).flags fTracking = false) ∧
    (∀ fuel st c st' r, updComputed fuel st c = some (st', r) →
       st'.activeSub = st.activeSub ∧ hasF (getNode st' c).flags fTracking = false) ∧
    (c8EffRes.map fun p =>
      (p.2, hasF (getNode p.1 1).flags fTracking, (getNode p.1 1).deps,
       (getLink p.1 0).dep, (getLink p.1 0).sub, p.1.activeSub, runsOf p.1.log 1)) =
      some (true, false, some 0, 0, 1, none, []) ∧
    (c8CompRes.map fun p =>
      (p.2, hasF (getNode p.1 1).flags fTracking, hasF (getNode p.1 2).flags fTracking,
       (getNode p.1 1).deps, (getLink p.1 0).dep, (getLink p.1 0).sub, p.1.activeSub)) =
      some (true, false, false, some 0, 0, 1, none) :=
  ⟨runEffect_closes, updComputed_closes, by decide, by decide⟩

/-- Witness for C8: the generic `runEffect` closure applied to the
concrete throwing run of effect 1. -/
theorem C8_throw_closes_session_witness :
    c8RunRes.activeSub = c8EffStart.activeSub ∧
    hasF (getNode c8RunRes 1).flags fTracking = false :=
  C8_throw_closes_session.1 20 c8EffStart 1 c8RunRes true (by decide)

end AlienSignals
